import Mathlib

/-!
# Verification of the Sage lowering pipeline

This development embeds the parts of the Sage compiler toolchain that the
specification's claims are about:

* the assembly-layer `Location` algebra and its composite operations
  (translated from `src/asm/location.rs`),
* the C target emitters `build_core` and `build_std`
  (translated from `src/targets/c.rs`),
* the CLI compile pipeline dispatch and error handling
  (translated from `src/cli.rs`).

The virtual-machine instruction set and its operational semantics live in
`src/vm` of the repository, which is not part of the sources given here;
they are modelled from the specification (sections 3 and 4.1), as marked on
each such definition.
-/

namespace Sage

/-- The core-tier VM instruction set.  Modelled from the spec: section 3 lists
the core instructions `Set(n)`, `Save`, `Restore`, `Move(n)`, `Where`,
`Deref`, `Refer`, `Index`, `BitwiseNand`, `Add`, `Sub`, `Mul`, `Div`, `Rem`,
`IsNonNegative`, `Get(src)`, `Put(dst)`, `Function`, `Call`, `Return`,
`While`, `If`, `Else`, `End`, `Comment(text)`.  The `vm::CoreOp` type itself
is outside the given sources; this mirrors the constructors exactly as the
C emitter in `src/targets/c.rs` matches on them.  Rust `isize` payloads
become `Int`. -/
inductive CoreOp where
  | Set (n : Int)
  | Save
  | Restore
  | Move (n : Int)
  | Where
  | Deref
  | Refer
  | Index
  | BitwiseNand
  | Add
  | Sub
  | Mul
  | Div
  | Rem
  | IsNonNegative
  | Get (src : Int)
  | Put (dst : Int)
  | Function
  | Call
  | Return
  | While
  | If
  | Else
  | End
  | Comment (text : String)
deriving DecidableEq, Repr

/-- The VM state.  Modelled from the spec: section 3 describes a tape of
cells, a data pointer, a scratch register, and a reference stack of saved
data pointers.  Cells are integers (the integer/address views of the tagged
cell; no claim concerns the float view).  The tape is modelled as a total
function from cell index to value: every claim below concerns in-range
executions, so the fixed tape size plays no role.  `input` and `output`
model the Device of section 6 as streams (`output` keeps the `dst` channel
with each value). -/
@[ext]
structure VMState where
  tape : Int → Int
  ptr : Int
  reg : Int
  refs : List Int
  input : List Int
  output : List (Int × Int)

/-- Pointwise tape update. -/
def upd (t : Int → Int) (i v : Int) : Int → Int :=
  fun j => if j = i then v else t j

/-- Semantics of a single non-control instruction.  Modelled from the spec,
section 4.1: `Set` writes the register, `Save`/`Restore` move between
register and current cell, `Move` shifts the data pointer, `Where` reads the
pointer into the register, `Deref` pushes the pointer on the reference stack
and follows the cell as an address, `Refer` pops it back (reference-stack
underflow is an interpreter error), arithmetic acts between register and
current cell with division and modulo by zero as errors, `IsNonNegative`
writes 1 or 0, `Get` reads the next input value (yielding -1 on exhausted
input, as the StandardDevice returns -1 on EOF) and `Put` appends the
register to the output.  Control instructions are handled by `stepOp` and
yield `none` here. -/
def execPlain : CoreOp → VMState → Option VMState
  | .Set n, s => some { s with reg := n }
  | .Save, s => some { s with tape := upd s.tape s.ptr s.reg }
  | .Restore, s => some { s with reg := s.tape s.ptr }
  | .Move d, s => some { s with ptr := s.ptr + d }
  | .Where, s => some { s with reg := s.ptr }
  | .Deref, s => some { s with refs := s.ptr :: s.refs, ptr := s.tape s.ptr }
  | .Refer, s =>
      match s.refs with
      | [] => none
      | p :: r => some { s with ptr := p, refs := r }
  | .Index, s => some { s with reg := s.reg + s.tape s.ptr }
  | .BitwiseNand, s => some { s with reg := -(Int.land s.reg (s.tape s.ptr)) - 1 }
  | .Add, s => some { s with reg := s.reg + s.tape s.ptr }
  | .Sub, s => some { s with reg := s.reg - s.tape s.ptr }
  | .Mul, s => some { s with reg := s.reg * s.tape s.ptr }
  | .Div, s =>
      if s.tape s.ptr = 0 then none
      else some { s with reg := Int.tdiv s.reg (s.tape s.ptr) }
  | .Rem, s =>
      if s.tape s.ptr = 0 then none
      else some { s with reg := Int.tmod s.reg (s.tape s.ptr) }
  | .IsNonNegative, s => some { s with reg := if 0 ≤ s.reg then 1 else 0 }
  | .Get _, s =>
      match s.input with
      | [] => some { s with reg := -1 }
      | v :: t => some { s with reg := v, input := t }
  | .Put dst, s => some { s with output := s.output ++ [(dst, s.reg)] }
  | .Comment _, s => some s
  | _, _ => none

/-- Control frames of the structured-block executor: executing the then or
else branch of an `If`, skipping a then branch while looking for the
matching `Else` or `End`, or skipping a dead region up to the matching
`End`. -/
inductive Frame where
  | execThen
  | execElse
  | skipToElse
  | skipOver
deriving DecidableEq, Repr

/-- A configuration of the executor: the stack of open control frames and
the VM state. -/
abbrev Config := List Frame × VMState

/-- One instruction in executing position.  Modelled from the spec, section
4.1: `If` branches on the register value, `Else` ends a taken then branch,
`End` closes the block; `Else` or `End` with no open block is an interpreter
error.  `While`, `Function`, `Call` and `Return` are outside the fragment
this model covers (no `Location` composite operation emits them); they yield
`none`. -/
def stepRun (op : CoreOp) (fs : List Frame) (s : VMState) : Option Config :=
  match op with
  | .If =>
      if s.reg ≠ 0 then some (Frame.execThen :: fs, s)
      else some (Frame.skipToElse :: fs, s)
  | .Else =>
      match fs with
      | Frame.execThen :: rest => some (Frame.skipOver :: rest, s)
      | _ => none
  | .End =>
      match fs with
      | Frame.execThen :: rest => some (rest, s)
      | Frame.execElse :: rest => some (rest, s)
      | _ => none
  | .While => none
  | .Function => none
  | .Call => none
  | .Return => none
  | op => (execPlain op s).map (fun s2 => (fs, s2))

/-- One instruction of the structured-block executor.  When the top frame is
a skipping frame the instruction is not executed: nested openers push a
dead-region frame, `Else` either starts the else branch (when looking for
it) or is passed over, and `End` closes the frame; every other instruction
is passed over, exactly as an interpreter with a pre-computed skip table
jumps across the dead branch (spec, section 4.4). -/
def stepOp (op : CoreOp) (c : Config) : Option Config :=
  match c with
  | (Frame.skipToElse :: rest, s) =>
      match op with
      | .If => some (Frame.skipOver :: Frame.skipToElse :: rest, s)
      | .While => some (Frame.skipOver :: Frame.skipToElse :: rest, s)
      | .Function => some (Frame.skipOver :: Frame.skipToElse :: rest, s)
      | .Else => some (Frame.execElse :: rest, s)
      | .End => some (rest, s)
      | _ => some (Frame.skipToElse :: rest, s)
  | (Frame.skipOver :: rest, s) =>
      match op with
      | .If => some (Frame.skipOver :: Frame.skipOver :: rest, s)
      | .While => some (Frame.skipOver :: Frame.skipOver :: rest, s)
      | .Function => some (Frame.skipOver :: Frame.skipOver :: rest, s)
      | .Else => some (Frame.skipOver :: rest, s)
      | .End => some (rest, s)
      | _ => some (Frame.skipOver :: rest, s)
  | (fs, s) => stepRun op fs s

/-- Execute a list of instructions from a configuration. -/
def execOps : List CoreOp → Config → Option Config
  | [], c => some c
  | op :: t, c =>
      match stepOp op c with
      | none => none
      | some c2 => execOps t c2

/-- Run an instruction sequence from a state with no open blocks; the
sequence must close every block it opens. -/
def run (ops : List CoreOp) (s : VMState) : Option VMState :=
  match execOps ops ([], s) with
  | some ([], s2) => some s2
  | _ => none

/-- A location in memory on the tape, from `src/asm/location.rs`: a fixed
position (`Address`, Rust `usize` becomes `Nat`), the cell whose address is
stored at another location (`Indirect`), or a location shifted by a signed
offset (`Offset`). -/
inductive Location where
  | Address (a : Nat)
  | Indirect (l : Location)
  | Offset (l : Location) (d : Int)
deriving DecidableEq, Repr

namespace Location

/-- `Location::offset` from `src/asm/location.rs`. -/
def offset (l : Location) (d : Int) : Location := .Offset l d

/-- `Location::deref` from `src/asm/location.rs`. -/
def deref (l : Location) : Location := .Indirect l

/-- The stack pointer register `SP = Address(0)` (`src/asm/location.rs`). -/
def SP : Location := .Address 0

/-- The temporary register `TMP = Address(1)` (`src/asm/location.rs`). -/
def TMP : Location := .Address 1

/-- The frame pointer register `FP = Address(2)` (`src/asm/location.rs`). -/
def FP : Location := .Address 2

/-- The general purpose register `A = Address(3)` (`src/asm/location.rs`). -/
def A : Location := .Address 3

/-- The general purpose register `B = Address(4)` (`src/asm/location.rs`). -/
def B : Location := .Address 4

/-- The instructions emitted by `Location::to` (`src/asm/location.rs` lines
149-161): `Move` to an address, recurse then `Deref` for an indirection,
recurse then `Move` by the offset.  The `VirtualMachineProgram` sink is
modelled as the emitted instruction list; `move_pointer`, `deref` and the
other trait methods append the corresponding instruction (modelled from the
spec, section 4.2, as the trait lives in `src/vm`). -/
def toOps : Location → List CoreOp
  | .Address a => [.Move (a : Int)]
  | .Indirect l => toOps l ++ [.Deref]
  | .Offset l d => toOps l ++ [.Move d]

/-- The instructions emitted by `Location::from` (`src/asm/location.rs`
lines 164-177): `Move` back from an address, `Refer` then recurse for an
indirection, `Move` back by the offset then recurse. -/
def fromOps : Location → List CoreOp
  | .Address a => [.Move (-(a : Int))]
  | .Indirect l => .Refer :: fromOps l
  | .Offset l d => .Move (-d) :: fromOps l

/-- The cell a location designates, when the data pointer starts at `p` on
tape `t`: `to` lands the pointer on this cell. -/
def target : Location → (Int → Int) → Int → Int
  | .Address a, _, p => p + (a : Int)
  | .Indirect l, t, p => t (target l t p)
  | .Offset l d, t, p => target l t p + d

/-- The data-pointer values `to` pushes on the reference stack (most recent
first): one entry per `Indirect` layer. -/
def pushes : Location → (Int → Int) → Int → List Int
  | .Address _, _, _ => []
  | .Indirect l, t, p => target l t p :: pushes l t p
  | .Offset l _, t, p => pushes l t p

/-- `Location::save_to` (`src/asm/location.rs` lines 202-206):
`to`, `Save`, `from`. -/
def save_to (l : Location) : List CoreOp :=
  toOps l ++ [.Save] ++ fromOps l

/-- `Location::restore_from` (`src/asm/location.rs` lines 209-213):
`to`, `Restore`, `from`. -/
def restore_from (l : Location) : List CoreOp :=
  toOps l ++ [.Restore] ++ fromOps l

/-- `Location::copy_address_to` (`src/asm/location.rs` lines 141-146):
`to`, `Where`, `from`, then save the register to the destination. -/
def copy_address_to (l dst : Location) : List CoreOp :=
  toOps l ++ [.Where] ++ fromOps l ++ save_to dst

/-- `Location::copy_to` (`src/asm/location.rs` lines 357-360):
restore from the source, save to the destination. -/
def copy_to (l other : Location) : List CoreOp :=
  restore_from l ++ save_to other

/-- `Location::set` (`src/asm/location.rs` lines 351-354):
set the register, save to the location. -/
def set (l : Location) (n : Int) : List CoreOp :=
  .Set n :: save_to l

/-- `Location::push` (`src/asm/location.rs` lines 129-132): bump the cell
`SP` points at by recording the address of `Indirect(SP)` offset by one into
`SP`, then copy this location to `Indirect(SP)`. -/
def push (l : Location) : List CoreOp :=
  copy_address_to ((SP.deref).offset 1) SP ++ copy_to l SP.deref

/-- `Location::pop` (`src/asm/location.rs` lines 135-138): copy
`Indirect(SP)` to this location, then move `SP` back down by one. -/
def pop (l : Location) : List CoreOp :=
  copy_to SP.deref l ++ copy_address_to ((SP.deref).offset (-1)) SP

/-- `Location::next` (`src/asm/location.rs` lines 181-183): advance the
pointer stored at this location by `count` cells. -/
def next (l : Location) (count : Int) : List CoreOp :=
  copy_address_to ((l.deref).offset count) l

/-- `Location::prev` (`src/asm/location.rs` lines 187-189): move the pointer
stored at this location back by `count` cells. -/
def prev (l : Location) (count : Int) : List CoreOp :=
  copy_address_to ((l.deref).offset (-count)) l

/-- `Location::whole_int` (`src/asm/location.rs` lines 193-199):
`to`, `Restore`, `IsNonNegative` (the trait method `whole_int`), `Save`,
`from`. -/
def whole_int (l : Location) : List CoreOp :=
  toOps l ++ [.Restore, .IsNonNegative, .Save] ++ fromOps l

/-- The register-increment instruction sequence appended by the
`VirtualMachineProgram` trait method `inc`.  Modelled from the spec, section
4.2: increments are "emitted via Set plus or minus 1 then Add against the
current cell": the register is first parked in the current cell with `Save`,
then `Set 1; Add` rebuilds register plus one, so that the register ends one
above its prior value as the comparison derivation of the spec (a greater
than b iff a minus b minus 1 is nonnegative, with `dec` supplying the minus
one) requires. -/
def incReg : List CoreOp := [.Save, .Set 1, .Add]

/-- The register-decrement sequence of the trait method `dec`; modelled from
the spec like `incReg`, with `Set (-1)` so the register ends one below its
prior value. -/
def decReg : List CoreOp := [.Save, .Set (-1), .Add]

/-- `Location::inc` (`src/asm/location.rs` lines 216-222):
`to`, `Restore`, the register increment, `Save`, `from`. -/
def inc (l : Location) : List CoreOp :=
  toOps l ++ [.Restore] ++ incReg ++ [.Save] ++ fromOps l

/-- `Location::dec` (`src/asm/location.rs` lines 225-231):
`to`, `Restore`, the register decrement, `Save`, `from`. -/
def dec (l : Location) : List CoreOp :=
  toOps l ++ [.Restore] ++ decReg ++ [.Save] ++ fromOps l

/-- `Location::binop` (`src/asm/location.rs` lines 237-243): restore from
the destination, move onto the source, apply the core operation, move back,
save to the destination. -/
def binop (op : CoreOp) (l src : Location) : List CoreOp :=
  restore_from l ++ toOps src ++ [op] ++ fromOps src ++ save_to l

/-- `Location::add` (`src/asm/location.rs` lines 326-328). -/
def add (l other : Location) : List CoreOp := binop .Add l other

/-- `Location::sub` (`src/asm/location.rs` lines 331-333). -/
def sub (l other : Location) : List CoreOp := binop .Sub l other

/-- `Location::mul` (`src/asm/location.rs` lines 336-338). -/
def mul (l other : Location) : List CoreOp := binop .Mul l other

/-- `Location::div` (`src/asm/location.rs` lines 341-343). -/
def div (l other : Location) : List CoreOp := binop .Div l other

/-- `Location::rem` (`src/asm/location.rs` lines 346-348). -/
def rem (l other : Location) : List CoreOp := binop .Rem l other

/-- `Location::not` (`src/asm/location.rs` lines 249-259): branch on the
cell, setting the register to 0 on the nonzero branch and 1 on the zero
branch, then save. -/
def not (l : Location) : List CoreOp :=
  toOps l ++ [.Restore, .If, .Set 0, .Else, .Set 1, .End, .Save] ++ fromOps l

/-- `Location::and` (`src/asm/location.rs` lines 262-274): branch on this
cell; on the live branch walk back, restore from the source and return, on
the dead branch set the register to 0; then save. -/
def and (l src : Location) : List CoreOp :=
  toOps l ++ [.Restore, .If] ++ fromOps l ++ restore_from src ++ toOps l
    ++ [.Else, .Set 0, .End, .Save] ++ fromOps l

/-- `Location::or` (`src/asm/location.rs` lines 277-289): branch on this
cell; on the live branch set the register to 1, on the dead branch walk
back, restore from the source and return; then save. -/
def or (l src : Location) : List CoreOp :=
  toOps l ++ [.Restore, .If, .Set 1, .Else] ++ fromOps l ++ restore_from src ++ toOps l
    ++ [.End, .Save] ++ fromOps l

/-- `Location::is_greater_than` (`src/asm/location.rs` lines 292-298). -/
def is_greater_than (l src : Location) : List CoreOp :=
  copy_to l TMP ++ sub TMP src ++ dec TMP ++ whole_int TMP ++ save_to l

/-- `Location::is_greater_or_equal_to` (`src/asm/location.rs` lines
301-306). -/
def is_greater_or_equal_to (l src : Location) : List CoreOp :=
  copy_to l TMP ++ sub TMP src ++ whole_int TMP ++ save_to l

/-- `Location::is_less_than` (`src/asm/location.rs` lines 309-315). -/
def is_less_than (l src : Location) : List CoreOp :=
  copy_to src TMP ++ sub TMP l ++ dec TMP ++ whole_int TMP ++ save_to l

/-- `Location::is_less_or_equal_to` (`src/asm/location.rs` lines
318-323). -/
def is_less_or_equal_to (l src : Location) : List CoreOp :=
  copy_to src TMP ++ sub TMP l ++ whole_int TMP ++ save_to l

end Location

/-- Instructions that open, close or branch a structured block. -/
def isCtl : CoreOp → Bool
  | .If => true
  | .Else => true
  | .End => true
  | .While => true
  | .Function => true
  | .Call => true
  | .Return => true
  | _ => false

/-- The frame stack is in executing position: empty, or a branch of an `If`
being executed on top. -/
def RunningCtl : List Frame → Prop
  | [] => True
  | Frame.execThen :: _ => True
  | Frame.execElse :: _ => True
  | _ => False

/-- The composite operations of the assembly layer, one constructor per
public composite method of `src/asm/location.rs`, with the arguments each
method takes. -/
inductive CompositeOp where
  | set (l : Location) (n : Int)
  | save_to (l : Location)
  | restore_from (l : Location)
  | copy_to (l other : Location)
  | copy_address_to (l dst : Location)
  | inc (l : Location)
  | dec (l : Location)
  | add (l other : Location)
  | sub (l other : Location)
  | mul (l other : Location)
  | div (l other : Location)
  | rem (l other : Location)
  | not (l : Location)
  | and (l src : Location)
  | or (l src : Location)
  | whole_int (l : Location)
  | is_greater_than (l src : Location)
  | is_greater_or_equal_to (l src : Location)
  | is_less_than (l src : Location)
  | is_less_or_equal_to (l src : Location)
  | push (l : Location)
  | pop (l : Location)
  | next (l : Location) (count : Int)
  | prev (l : Location) (count : Int)

/-- The instruction sequence a composite operation emits, method by method
from `src/asm/location.rs`. -/
def CompositeOp.emit : CompositeOp → List CoreOp
  | .set l n => Location.set l n
  | .save_to l => Location.save_to l
  | .restore_from l => Location.restore_from l
  | .copy_to l other => Location.copy_to l other
  | .copy_address_to l dst => Location.copy_address_to l dst
  | .inc l => Location.inc l
  | .dec l => Location.dec l
  | .add l other => Location.add l other
  | .sub l other => Location.sub l other
  | .mul l other => Location.mul l other
  | .div l other => Location.div l other
  | .rem l other => Location.rem l other
  | .not l => Location.not l
  | .and l src => Location.and l src
  | .or l src => Location.or l src
  | .whole_int l => Location.whole_int l
  | .is_greater_than l src => Location.is_greater_than l src
  | .is_greater_or_equal_to l src => Location.is_greater_or_equal_to l src
  | .is_less_than l src => Location.is_less_than l src
  | .is_less_or_equal_to l src => Location.is_less_or_equal_to l src
  | .push l => Location.push l
  | .pop l => Location.pop l
  | .next l count => Location.next l count
  | .prev l count => Location.prev l count

/-- An instruction sequence that, whenever it runs to completion from an
executing position, restores the frame stack and leaves the data pointer
where it started. -/
def PtrSafe (ops : List CoreOp) : Prop :=
  ∀ (fs : List Frame) (s : VMState) (out : Config), RunningCtl fs →
    execOps ops (fs, s) = some out → out.1 = fs ∧ out.2.ptr = s.ptr

/-! ## The C target (`src/targets/c.rs`) -/

/-- Emission state of the C target builders (`src/targets/c.rs`): the
output accumulated so far, the stack of open structured ops (`matching`),
the stack of indices of open functions (`funs`), the next function index
(`fun` in the Rust), and the indentation depth. -/
structure CEmitState where
  result : String
  matching : List CoreOp
  funs : List Nat
  funCounter : Nat
  indent : Nat

/-- `tab.repeat(n)` for the tab string of `src/targets/c.rs`. -/
def tabs (n : Nat) : String := String.mk (List.replicate n '\t')

/-- The fixed C prelude of `build_core` (`src/targets/c.rs` lines
28-39). -/
def coreHeader : String :=
  "#include <stdio.h>\nunion int_or_float \x7b\n    long long int i;\n    double f;\n    union int_or_float *p;\n\x7d tape[200000], *refs[1024], *ptr = tape, **ref = refs, reg;\nunsigned int ref_ptr = 0;\nvoid (*funs[10000])(void);\nint main() \x7b\n"

/-- The outcome of one emitter step or of a whole builder.  `ok` and
`error` are the `Ok`/`Err` of the Rust `Result`; `panic` models the
process abort the Rust code can take instead of returning: the `usize`
indentation counter is decremented without a guard, and once it would go
below zero the subtraction panics (debug profile).  In the release profile
the counter wraps and the emitter aborts with a capacity overflow at the
next `tab.repeat` of the wrapped counter instead, so on an input that
still emits indentation afterwards both profiles abort; `panic` stands
for that non-returning exit, and `ok` here implies `Ok` in both
profiles. -/
inductive EmitOutcome (σ : Type) where
  | ok (val : σ)
  | error (e : String)
  | panic
deriving DecidableEq, Repr

/-- Whether an emitter outcome is a normal `Ok` return. -/
def EmitOutcome.isOk {σ : Type} : EmitOutcome σ → Bool
  | .ok _ => true
  | _ => false

/-- An emitter outcome with the payload forgotten: which of `Ok`, which
error, or the panic. -/
def EmitOutcome.shape {σ : Type} : EmitOutcome σ → EmitOutcome Unit
  | .ok _ => .ok ()
  | .error e => .error e
  | .panic => .panic

/-- One loop iteration of `C::build_core` (`src/targets/c.rs` lines
51-135): comments are skipped before anything is printed; every other op
first appends the indentation, then the text of its match arm, then a
newline.  `Else` with anything but an open `If` on the matching stack is
the one error exit.  The two unguarded `usize` subtractions `indent - 1`
(in the `Else` arm's `tab.repeat(indent - 1)` and the `End` arm's
`indent -= 1`) panic when `indent` is zero, and the `funs.pop().unwrap()`
of the `End`/`Function` arm panics when `funs` is empty. -/
def coreStep (st : CEmitState) (op : CoreOp) : EmitOutcome CEmitState :=
  match op with
  | .Comment _ => .ok st
  | _ =>
    let base := st.result ++ tabs st.indent
    match op with
    | .Set n => .ok { st with result := base ++ "reg.i = " ++ toString n ++ ";\n" }
    | .Function =>
        let f := st.funCounter
        .ok { st with result := base ++ "void f" ++ toString f ++ "() \x7b\n",
                      matching := CoreOp.Function :: st.matching,
                      funs := f :: st.funs,
                      funCounter := f + 1,
                      indent := st.indent + 1 }
    | .Call => .ok { st with result := base ++ "funs[reg.i]();\n" }
    | .Return => .ok { st with result := base ++ "return;\n" }
    | .While =>
        .ok { st with result := base ++ "while (reg.i) \x7b\n",
                      matching := CoreOp.While :: st.matching,
                      indent := st.indent + 1 }
    | .If =>
        .ok { st with result := base ++ "if (reg.i) \x7b\n",
                      matching := CoreOp.If :: st.matching,
                      indent := st.indent + 1 }
    | .Else =>
        match st.matching with
        | CoreOp.If :: rest =>
            if st.indent = 0 then .panic
            else
              .ok { st with result := base ++ "\n" ++ tabs (st.indent - 1) ++ "\x7d else \x7b\n",
                            matching := CoreOp.Else :: rest }
        | _ => .error "Unexpected else"
    | .End =>
        if st.indent = 0 then .panic
        else
          let ni := st.indent - 1
          match st.matching with
          | CoreOp.Function :: rest =>
              match st.funs with
              | f :: fr =>
                  .ok { st with result := base ++ "\n" ++ tabs ni ++ "\x7d funs["
                                  ++ toString f ++ "] = f" ++ toString f ++ ";\n",
                                matching := rest, funs := fr, indent := ni }
              | [] => .panic
          | CoreOp.While :: rest =>
              .ok { st with result := base ++ "\x7d\n", matching := rest, indent := ni }
          | CoreOp.If :: rest =>
              .ok { st with result := base ++ "\x7d\n", matching := rest, indent := ni }
          | CoreOp.Else :: rest =>
              .ok { st with result := base ++ "\x7d\n", matching := rest, indent := ni }
          | _ :: rest =>
              .ok { st with result := base ++ "\n", matching := rest, indent := ni }
          | [] =>
              .ok { st with result := base ++ "\n", matching := [], indent := ni }
    | .Save => .ok { st with result := base ++ "*ptr = reg;\n" }
    | .Restore => .ok { st with result := base ++ "reg = *ptr;\n" }
    | .Move n => .ok { st with result := base ++ "ptr += " ++ toString n ++ ";\n" }
    | .Where => .ok { st with result := base ++ "reg.p = ptr;\n" }
    | .Deref =>
        .ok { st with result := base ++ "*ref++ = ptr;\n" ++ tabs st.indent ++ "ptr = ptr->p;\n" }
    | .Refer => .ok { st with result := base ++ "ptr = *--ref;\n" }
    | .Index => .ok { st with result := base ++ "reg.p += ptr->i;\n" }
    | .BitwiseNand => .ok { st with result := base ++ "reg.i = ~(reg.i & ptr->i);\n" }
    | .Add => .ok { st with result := base ++ "reg.i += ptr->i;\n" }
    | .Sub => .ok { st with result := base ++ "reg.i -= ptr->i;\n" }
    | .Mul => .ok { st with result := base ++ "reg.i *= ptr->i;\n" }
    | .Div => .ok { st with result := base ++ "reg.i /= ptr->i;\n" }
    | .Rem => .ok { st with result := base ++ "reg.i %= ptr->i;\n" }
    | .IsNonNegative => .ok { st with result := base ++ "reg.i = reg.i >= 0;\n" }
    | .Get _ =>
        .ok { st with result := base ++ "reg.i = (reg.i = getchar()) == EOF? -1 : reg.i;\n" }
    | .Put _ => .ok { st with result := base ++ "putchar(reg.i);\n" }
    | .Comment _ => .ok st

/-- The emission loop of `build_core`: the `Else` arm's error returns
early, and a panic ends the process, so both cut the loop short. -/
def coreEmitLoop : List CoreOp → CEmitState → EmitOutcome CEmitState
  | [], st => .ok st
  | op :: t, st =>
      match coreStep st op with
      | .error e => .error e
      | .panic => .panic
      | .ok st2 => coreEmitLoop t st2

/-- The state `build_core` starts its loop from. -/
def coreInit : CEmitState :=
  { result := coreHeader ++ "\t" ++ "reg.i = 0;\n",
    matching := [], funs := [], funCounter := 0, indent := 1 }

/-- `C::build_core` (`src/targets/c.rs` lines 26-138). -/
def build_core (ops : List CoreOp) : EmitOutcome String :=
  match coreEmitLoop ops coreInit with
  | .ok st => .ok (st.result ++ "\t" ++ "return 0;\n\x7d")
  | .error e => .error e
  | .panic => .panic

/-- The standard-tier instruction set (`vm::StandardOp`), mirrored from the
arms `build_std` matches on (the type itself lives in `src/vm`; modelled
from the spec, section 3).  The float payload of `StandardOp::Set` is kept
as its Rust Debug rendering, the only use `build_std` makes of it. -/
inductive StdOp where
  | Set (v : String)
  | Peek
  | Poke
  | Add
  | Sub
  | Mul
  | Div
  | Rem
  | Pow
  | IsNonNegative
  | Sin
  | Cos
  | Tan
  | ASin
  | ACos
  | ATan
  | Alloc
  | Free
  | ToInt
  | ToFloat
  | CoreOp (op : CoreOp)
deriving DecidableEq, Repr

/-- The fixed C prelude of `build_std` (`src/targets/c.rs` lines
142-167). -/
def stdHeader : String :=
  "#include <stdio.h>\n#include <string.h>\n#include <stdlib.h>\n#include <math.h>\nunion int_or_float \x7b\n    long long int i;\n    double f;\n    union int_or_float *p;\n\x7d tape[200000], *refs[1024], *ptr = tape, **ref = refs, reg;\nvoid (*funs[10000])(void);\n\nunion int_or_float peek() \x7b\n    union int_or_float tmp;\n    tmp.i = 0;\n    return tmp;\n\x7d\n\nvoid poke(union int_or_float val) \x7b\n    return;\n\x7d\n\n\nint main() \x7b\n"

/-- One loop iteration of `C::build_std` (`src/targets/c.rs` lines
177-373).  Comments are skipped by the `continue` at the top of the loop;
`Else` performs no matching-stack check; the arms for `Get` and `Put` are
commented out in the source and append nothing.  The loop has no error
exit, but the unguarded `usize` subtractions `indent - 1` in the `Else`
arm's `tab.repeat(indent - 1)` and the `End` arm's `indent -= 1` panic
when `indent` is zero, as does the `funs.pop().unwrap()` of the
`End`/`Function` arm on an empty `funs`. -/
def stdStep (st : CEmitState) (op : StdOp) : EmitOutcome CEmitState :=
  match op with
  | .CoreOp (.Comment _) => .ok st
  | .Set v => .ok { st with result := st.result ++ tabs st.indent ++ "reg.f = " ++ v ++ ";\n" }
  | .Peek => .ok { st with result := st.result ++ tabs st.indent ++ "reg = peek();\n" }
  | .Poke => .ok { st with result := st.result ++ tabs st.indent ++ "poke(reg);\n" }
  | .Add => .ok { st with result := st.result ++ tabs st.indent ++ "reg.f += ptr->f;\n" }
  | .Sub => .ok { st with result := st.result ++ tabs st.indent ++ "reg.f -= ptr->f;\n" }
  | .Mul => .ok { st with result := st.result ++ tabs st.indent ++ "reg.f *= ptr->f;\n" }
  | .Div => .ok { st with result := st.result ++ tabs st.indent ++ "reg.f /= ptr->f;\n" }
  | .Rem =>
      .ok { st with result := st.result ++ tabs st.indent ++ "reg.f = fmod(reg.f, ptr->f);\n" }
  | .Pow =>
      .ok { st with result := st.result ++ tabs st.indent ++ "reg.f = powf(reg.f, ptr->f);\n" }
  | .IsNonNegative =>
      .ok { st with result := st.result ++ tabs st.indent ++ "reg.i = reg.f >= 0;\n" }
  | .Sin => .ok { st with result := st.result ++ tabs st.indent ++ "reg.f = sin(reg.f);\n" }
  | .Cos => .ok { st with result := st.result ++ tabs st.indent ++ "reg.f = cos(reg.f);\n" }
  | .Tan => .ok { st with result := st.result ++ tabs st.indent ++ "reg.f = tan(reg.f);\n" }
  | .ASin => .ok { st with result := st.result ++ tabs st.indent ++ "reg.f = asin(reg.f);\n" }
  | .ACos => .ok { st with result := st.result ++ tabs st.indent ++ "reg.f = acos(reg.f);\n" }
  | .ATan => .ok { st with result := st.result ++ tabs st.indent ++ "reg.f = atan(reg.f);\n" }
  | .Alloc =>
      .ok { st with result := st.result ++ tabs st.indent
              ++ "reg.p = malloc(reg.i * sizeof(*ptr));\n" }
  | .Free => .ok { st with result := st.result ++ tabs st.indent ++ "free(reg.p);\n" }
  | .ToInt =>
      .ok { st with result := st.result ++ tabs st.indent ++ "reg.i = (long long int)reg.f;\n" }
  | .ToFloat =>
      .ok { st with result := st.result ++ tabs st.indent ++ "reg.f = (double)reg.i;\n" }
  | .CoreOp (.Set n) =>
      .ok { st with result := st.result ++ tabs st.indent ++ "reg.i = " ++ toString n ++ ";\n" }
  | .CoreOp .Function =>
      let f := st.funCounter
      .ok { st with result := st.result ++ tabs st.indent ++ "void f" ++ toString f
                      ++ "() \x7b\n",
                    matching := CoreOp.Function :: st.matching,
                    funs := f :: st.funs,
                    funCounter := f + 1,
                    indent := st.indent + 1 }
  | .CoreOp .Call => .ok { st with result := st.result ++ tabs st.indent ++ "funs[reg.i]();\n" }
  | .CoreOp .Return => .ok { st with result := st.result ++ tabs st.indent ++ "return;\n" }
  | .CoreOp .While =>
      .ok { st with result := st.result ++ tabs st.indent ++ "while (reg.i) \x7b\n",
                    matching := CoreOp.While :: st.matching,
                    indent := st.indent + 1 }
  | .CoreOp .If =>
      .ok { st with result := st.result ++ tabs st.indent ++ "if (reg.i) \x7b\n",
                    matching := CoreOp.If :: st.matching,
                    indent := st.indent + 1 }
  | .CoreOp .Else =>
      if st.indent = 0 then .panic
      else .ok { st with result := st.result ++ tabs (st.indent - 1) ++ "\x7d else \x7b\n" }
  | .CoreOp .End =>
      if st.indent = 0 then .panic
      else
        let ni := st.indent - 1
        match st.matching with
        | CoreOp.Function :: rest =>
            match st.funs with
            | f :: fr =>
                .ok { st with result := st.result ++ tabs ni ++ "\x7d funs[" ++ toString f
                                ++ "] = f" ++ toString f ++ ";\n",
                              matching := rest, funs := fr, indent := ni }
            | [] => .panic
        | CoreOp.While :: rest =>
            .ok { st with result := st.result ++ tabs ni ++ "\x7d\n",
                          matching := rest, indent := ni }
        | CoreOp.If :: rest =>
            .ok { st with result := st.result ++ tabs ni ++ "\x7d\n",
                          matching := rest, indent := ni }
        | CoreOp.Else :: rest =>
            .ok { st with result := st.result ++ tabs ni ++ "\x7d\n",
                          matching := rest, indent := ni }
        | _ :: rest => .ok { st with matching := rest, indent := ni }
        | [] => .ok { st with indent := ni }
  | .CoreOp .Save => .ok { st with result := st.result ++ tabs st.indent ++ "*ptr = reg;\n" }
  | .CoreOp .Restore => .ok { st with result := st.result ++ tabs st.indent ++ "reg = *ptr;\n" }
  | .CoreOp (.Move n) =>
      if 0 ≤ n then
        .ok { st with result := st.result ++ tabs st.indent ++ "ptr += " ++ toString n ++ ";\n" }
      else
        .ok { st with result := st.result ++ tabs st.indent ++ "ptr -= " ++ toString (-n) ++ ";\n" }
  | .CoreOp .Where => .ok { st with result := st.result ++ tabs st.indent ++ "reg.p = ptr;\n" }
  | .CoreOp .Deref =>
      .ok { st with result := st.result ++ tabs st.indent ++ "*ref++ = ptr;\n"
              ++ tabs st.indent ++ "ptr = ptr->p;\n" }
  | .CoreOp .Refer => .ok { st with result := st.result ++ tabs st.indent ++ "ptr = *--ref;\n" }
  | .CoreOp .Index => .ok { st with result := st.result ++ tabs st.indent ++ "reg.p += ptr->i;\n" }
  | .CoreOp .BitwiseNand =>
      .ok { st with result := st.result ++ tabs st.indent ++ "reg.i = ~(reg.i & ptr->i);\n" }
  | .CoreOp .Add => .ok { st with result := st.result ++ tabs st.indent ++ "reg.i += ptr->i;\n" }
  | .CoreOp .Sub => .ok { st with result := st.result ++ tabs st.indent ++ "reg.i -= ptr->i;\n" }
  | .CoreOp .Mul => .ok { st with result := st.result ++ tabs st.indent ++ "reg.i *= ptr->i;\n" }
  | .CoreOp .Div => .ok { st with result := st.result ++ tabs st.indent ++ "reg.i /= ptr->i;\n" }
  | .CoreOp .Rem => .ok { st with result := st.result ++ tabs st.indent ++ "reg.i %= ptr->i;\n" }
  | .CoreOp .IsNonNegative =>
      .ok { st with result := st.result ++ tabs st.indent ++ "reg.i = reg.i >= 0;\n" }
  | .CoreOp (.Get _) => .ok st
  | .CoreOp (.Put _) => .ok st

/-- The emission loop of `build_std`: it has no error exit, but a panic
ends the process and so cuts the loop short. -/
def stdEmitLoop : List StdOp → CEmitState → EmitOutcome CEmitState
  | [], st => .ok st
  | op :: t, st =>
      match stdStep st op with
      | .error e => .error e
      | .panic => .panic
      | .ok st2 => stdEmitLoop t st2

/-- The state `build_std` starts its loop from. -/
def stdInit : CEmitState :=
  { result := stdHeader ++ "\t" ++ "reg.i = 0;\n",
    matching := [], funs := [], funCounter := 0, indent := 1 }

/-- `C::build_std` (`src/targets/c.rs` lines 140-376).  The Rust function
returns a `Result` whose body contains no `Err` exit; its only abnormal
outcome is the indentation-underflow panic. -/
def build_std (ops : List StdOp) : EmitOutcome String :=
  match stdEmitLoop ops stdInit with
  | .ok st => .ok (st.result ++ "\t" ++ "return 0;\n\x7d")
  | .error e => .error e
  | .panic => .panic

/-- The block and indentation discipline of `build_core` in isolation:
walk the program tracking only the `matching` stack and the indentation
counter, and report the outcome — the error of an `Else` whose innermost
open block is not an `If`, the panic of an indentation underflow, or
normal completion. -/
def coreScan : List CoreOp → List CoreOp → Nat → EmitOutcome Unit
  | [], _, _ => .ok ()
  | op :: t, m, i =>
      match op with
      | .Comment _ => coreScan t m i
      | .Function => coreScan t (.Function :: m) (i + 1)
      | .While => coreScan t (.While :: m) (i + 1)
      | .If => coreScan t (.If :: m) (i + 1)
      | .Else =>
          match m with
          | .If :: rest => if i = 0 then .panic else coreScan t (.Else :: rest) i
          | _ => .error "Unexpected else"
      | .End => if i = 0 then .panic else coreScan t m.tail (i - 1)
      | _ => coreScan t m i

/-- The block and indentation discipline of `build_std` in isolation: like
`coreScan` but with no error outcome at all — `build_std` checks nothing
at an `Else` — so the only abnormal outcome is the underflow panic. -/
def stdScan : List StdOp → List CoreOp → Nat → EmitOutcome Unit
  | [], _, _ => .ok ()
  | op :: t, m, i =>
      match op with
      | .CoreOp (.Comment _) => stdScan t m i
      | .CoreOp .Function => stdScan t (.Function :: m) (i + 1)
      | .CoreOp .While => stdScan t (.While :: m) (i + 1)
      | .CoreOp .If => stdScan t (.If :: m) (i + 1)
      | .CoreOp .Else => if i = 0 then .panic else stdScan t m i
      | .CoreOp .End => if i = 0 then .panic else stdScan t m.tail (i - 1)
      | _ => stdScan t m i

/-! ## The CLI (`src/cli.rs`) -/

/-- The CLI error type (`src/cli.rs` lines 115-136).  Payloads that are
only displayed are kept as their display strings. -/
inductive CliError where
  | WithSourceCode (loc source : String) (err : CliError)
  | IOError (e : String)
  | Parse (e : String)
  | LirError (e : String)
  | AsmError (e : String)
  | InterpreterError (e : String)
  | BuildError (e : String)
  | InvalidSource (e : String)
deriving DecidableEq, Repr

/-- The `fmt::Debug` rendering of `Error` (`src/cli.rs` lines 157-244);
`WithSourceCode` emits a rendered diagnostic to stderr, modelled by its
leading message. -/
def errLog : CliError → String
  | .WithSourceCode loc _ _ => "Error at " ++ loc
  | .IOError e => "IO error: " ++ e
  | .Parse e => "Parse error: " ++ e
  | .LirError e => "LIR error: " ++ e
  | .AsmError e => "Assembly error: " ++ e
  | .InterpreterError e => "Interpreter error: " ++ e
  | .BuildError e => "Build error: " ++ e
  | .InvalidSource e => "Invalid source: " ++ e

/-- The source language options of the CLI (`src/cli.rs` lines 64-78). -/
inductive SourceType where
  | Sage
  | LowIR
  | CoreASM
  | StdASM
  | CoreVM
  | StdVM
deriving DecidableEq, Repr

/-- The target options of the CLI (`src/cli.rs` lines 43-61). -/
inductive TargetType where
  | Run
  | CoreASM
  | StdASM
  | CoreVM
  | StdVM
  | MyOS
  | C
  | X86
deriving DecidableEq, Repr

/-- The outcomes of the pipeline stages the CLI calls that live outside the
given sources (the parsers, the LIR and frontend compilers, the assembler,
the other targets and the interpreters), for one fixed input file.
`compile_source_to_vm` and `compile` consume these exactly where the Rust
calls the external function.  `CA` and `SA` are the core and standard
assembly program types, `LIRP` the parsed LIR and `FE` the parsed frontend
program.  `Ok`/`Err` of the nested Rust results become `Sum.inl`/`Sum.inr`
for the core/standard split. -/
structure Externals (CA SA LIRP FE : Type) where
  parseVM : Except String (List CoreOp ⊕ List StdOp)
  parseASM : Except String (CA ⊕ SA)
  parseLIR : Except String LIRP
  compileLIR : LIRP → Except String (CA ⊕ SA)
  parseFrontend : Except String FE
  compileFrontend : FE → Except String (CA ⊕ SA)
  assembleCore : CA → Except String (List CoreOp)
  assembleStd : SA → Except String (List StdOp)
  flattenCore : List CoreOp → List CoreOp
  flattenStd : List StdOp → List StdOp
  showCore : List CoreOp → String
  showCoreDebug : List CoreOp → String
  showStd : List StdOp → String
  showStdDebug : List StdOp → String
  showCoreAsm : CA → String
  showCoreAsmDebug : CA → String
  showStdAsm : SA → String
  showStdAsmDebug : SA → String
  buildCoreMyOS : List CoreOp → Except String String
  buildStdMyOS : List StdOp → Except String String
  buildCoreX86 : List CoreOp → Except String String
  buildStdX86 : List StdOp → Except String String
  runCore : List CoreOp → Except String Unit
  runStd : List StdOp → Except String Unit

/-- `compile_source_to_vm` (`src/cli.rs` lines 247-328): dispatch on the
source type, classifying the result as a core (`inl`) or standard (`inr`)
VM program, with the `InvalidSource` rejections of the core source
types. -/
def compile_source_to_vm {CA SA LIRP FE : Type} (ext : Externals CA SA LIRP FE)
    (srcType : SourceType) : Except CliError (List CoreOp ⊕ List StdOp) :=
  match srcType with
  | .StdVM => ext.parseVM.mapError CliError.Parse
  | .CoreVM =>
      match ext.parseVM with
      | .error e => .error (.Parse e)
      | .ok (.inl prog) => .ok (.inl prog)
      | .ok (.inr _) =>
          .error (.InvalidSource "expected core VM program, got standard VM program")
  | .StdASM =>
      match ext.parseASM with
      | .error e => .error (.Parse e)
      | .ok (.inl prog) => ((ext.assembleCore prog).map Sum.inl).mapError CliError.AsmError
      | .ok (.inr prog) => ((ext.assembleStd prog).map Sum.inr).mapError CliError.AsmError
  | .CoreASM =>
      match ext.parseASM with
      | .error e => .error (.Parse e)
      | .ok (.inl prog) => ((ext.assembleCore prog).map Sum.inl).mapError CliError.AsmError
      | .ok (.inr _) =>
          .error (.InvalidSource "expected core assembly program, got standard assembly program")
  | .LowIR =>
      match ext.parseLIR with
      | .error e => .error (.Parse e)
      | .ok lir =>
          match ext.compileLIR lir with
          | .error e => .error (.LirError e)
          | .ok (.inl asmProg) => ((ext.assembleCore asmProg).map Sum.inl).mapError CliError.AsmError
          | .ok (.inr asmProg) => ((ext.assembleStd asmProg).map Sum.inr).mapError CliError.AsmError
  | .Sage =>
      match ext.parseFrontend with
      | .error e => .error (.Parse e)
      | .ok fe =>
          match ext.compileFrontend fe with
          | .error e => .error (.LirError e)
          | .ok (.inl asmProg) => ((ext.assembleCore asmProg).map Sum.inl).mapError CliError.AsmError
          | .ok (.inr asmProg) => ((ext.assembleStd asmProg).map Sum.inr).mapError CliError.AsmError

/-- `compile_source_to_asm` (`src/cli.rs` lines 331-365). -/
def compile_source_to_asm {CA SA LIRP FE : Type} (ext : Externals CA SA LIRP FE)
    (srcType : SourceType) : Except CliError (CA ⊕ SA) :=
  match srcType with
  | .StdASM => ext.parseASM.mapError CliError.Parse
  | .CoreASM =>
      match ext.parseASM with
      | .error e => .error (.Parse e)
      | .ok (.inl prog) => .ok (.inl prog)
      | .ok (.inr _) =>
          .error (.InvalidSource "expected core assembly program, got standard assembly program")
  | .LowIR =>
      match ext.parseLIR with
      | .error e => .error (.Parse e)
      | .ok lir => (ext.compileLIR lir).mapError CliError.LirError
  | .Sage =>
      match ext.parseFrontend with
      | .error e => .error (.Parse e)
      | .ok fe => (ext.compileFrontend fe).mapError CliError.LirError
  | .CoreVM => .error (.InvalidSource "cannot compile a core VM program to assembly")
  | .StdVM => .error (.InvalidSource "cannot compile a core VM program to assembly")

/-- The outcome of `compile`: `Ok`/`Err` of its Rust `Result`, or the
process abort a called C builder can take instead of returning (the
indentation underflow of `build_core`/`build_std`), which unwinds past
`compile` without producing a value. -/
inductive CliOutcome (σ : Type) where
  | ok (val : σ)
  | error (e : CliError)
  | panic
deriving DecidableEq, Repr

/-- A Rust `Result` from a stage that cannot panic, as a `CliOutcome`. -/
def CliOutcome.ofExcept {σ : Type} : Except CliError σ → CliOutcome σ
  | .ok v => .ok v
  | .error e => .error e

/-- `compile` (`src/cli.rs` lines 368-471): dispatch on the target.  File
writes are modelled as the returned (file name, contents) pair; the `Run`
target writes nothing.  The C target uses the `build_core` and `build_std`
embedded above from `src/targets/c.rs`, whose panic ends the process. -/
def compile {CA SA LIRP FE : Type} (ext : Externals CA SA LIRP FE) (srcType : SourceType)
    (target : TargetType) (output : String) (debug : Bool) :
    CliOutcome (Option (String × String)) :=
  match target with
  | .Run =>
      match compile_source_to_vm ext srcType with
      | .error e => .error e
      | .ok (.inl vm) =>
          .ofExcept (((ext.runCore vm).map (fun _ => none)).mapError CliError.InterpreterError)
      | .ok (.inr vm) =>
          .ofExcept (((ext.runStd vm).map (fun _ => none)).mapError CliError.InterpreterError)
  | .MyOS =>
      match compile_source_to_vm ext srcType with
      | .error e => .error e
      | .ok (.inl vm) =>
          match ext.buildCoreMyOS (ext.flattenCore vm) with
          | .error e => .error (.BuildError e)
          | .ok code => .ok (some (output ++ ".c", code))
      | .ok (.inr vm) =>
          match ext.buildStdMyOS (ext.flattenStd vm) with
          | .error e => .error (.BuildError e)
          | .ok code => .ok (some (output ++ ".c", code))
  | .C =>
      match compile_source_to_vm ext srcType with
      | .error e => .error e
      | .ok (.inl vm) =>
          match build_core (ext.flattenCore vm) with
          | .error e => .error (.BuildError e)
          | .ok code => .ok (some (output ++ ".c", code))
          | .panic => .panic
      | .ok (.inr vm) =>
          match build_std (ext.flattenStd vm) with
          | .error e => .error (.BuildError e)
          | .ok code => .ok (some (output ++ ".c", code))
          | .panic => .panic
  | .X86 =>
      match compile_source_to_vm ext srcType with
      | .error e => .error e
      | .ok (.inl vm) =>
          match ext.buildCoreX86 (ext.flattenCore vm) with
          | .error e => .error (.BuildError e)
          | .ok code => .ok (some (output ++ ".s", code))
      | .ok (.inr vm) =>
          match ext.buildStdX86 (ext.flattenStd vm) with
          | .error e => .error (.BuildError e)
          | .ok code => .ok (some (output ++ ".s", code))
  | .CoreVM =>
      match compile_source_to_vm ext srcType with
      | .error e => .error e
      | .ok (.inl vm) =>
          .ok (some (output ++ ".vm.sg",
            if debug then ext.showCoreDebug (ext.flattenCore vm)
            else ext.showCore (ext.flattenCore vm)))
      | .ok (.inr _) =>
          .error (.InvalidSource "expected core VM program, got standard VM program")
  | .StdVM =>
      match compile_source_to_vm ext srcType with
      | .error e => .error e
      | .ok (.inl vm) =>
          .ok (some (output ++ ".vm.sg",
            if debug then ext.showCoreDebug (ext.flattenCore vm)
            else ext.showCore (ext.flattenCore vm)))
      | .ok (.inr vm) =>
          .ok (some (output ++ ".vm.sg",
            if debug then ext.showStdDebug (ext.flattenStd vm)
            else ext.showStd (ext.flattenStd vm)))
  | .CoreASM =>
      match compile_source_to_asm ext srcType with
      | .error e => .error e
      | .ok (.inl asmProg) =>
          .ok (some (output ++ ".asm.sg",
            if debug then ext.showCoreAsmDebug asmProg else ext.showCoreAsm asmProg))
      | .ok (.inr _) =>
          .error (.InvalidSource "expected core assembly program, got standard assembly program")
  | .StdASM =>
      match compile_source_to_asm ext srcType with
      | .error e => .error e
      | .ok (.inl asmProg) =>
          .ok (some (output ++ ".asm.sg",
            if debug then ext.showCoreAsmDebug asmProg else ext.showCoreAsm asmProg))
      | .ok (.inr asmProg) =>
          .ok (some (output ++ ".asm.sg",
            if debug then ext.showStdAsmDebug asmProg else ext.showStdAsm asmProg))

/-- The error-handling tail of `cli` (`src/cli.rs` lines 504-524) together
with `main` (lines 527-547): the input file is read and `compile` invoked;
an error on either step is only passed to the `error!` log macro, both
branches fall through, `cli` returns normally, `main` joins the worker
thread, and the process exits with status 0.  The result is the process
exit code paired with the logged lines. -/
def cliRun (readRes : Except CliError String)
    (compileRes : String → Except CliError (Option (String × String))) :
    Nat × List String :=
  match readRes with
  | .ok contents =>
      match compileRes contents with
      | .ok _ => (0, [])
      | .error e => (0, [errLog e])
  | .error e => (0, ["Error reading file: " ++ errLog e])

/-- Whether a standard-tier op is a wrapped core op. -/
def StdOp.isCore : StdOp → Bool
  | .CoreOp _ => true
  | _ => false

/-- Whether a standard program contains a Standard-only op. -/
def containsStdOnly (p : List StdOp) : Bool :=
  p.any (fun op => ! op.isCore)

/-- Modelled from the spec: "A Standard program cannot be degraded to Core"
(section 3) and the serialization parser of section 6 classify a textual VM
program as the Core variant exactly when every op is core-tier; `parse_vm`
itself lives in `src/parse`.  The core projection keeps the wrapped core
ops. -/
def classifyVM (p : List StdOp) : List CoreOp ⊕ List StdOp :=
  if containsStdOnly p then Sum.inr p
  else Sum.inl (p.filterMap (fun op =>
    match op with
    | .CoreOp c => some c
    | _ => none))

/-- The instruction-level inverse underlying the `to`/`from` mirror
symmetry: `Move d` inverts to `Move (-d)` and `Deref` to `Refer`. -/
def invOp : CoreOp → CoreOp
  | .Move d => .Move (-d)
  | .Deref => .Refer
  | .Refer => .Deref
  | op => op

/-! ## Sample values for concrete executions -/

/-- A concrete bundle of external-stage outcomes: the input parses as the
one-op standard VM program `[Alloc]`; every other stage is inert. -/
def extSample : Externals Unit Unit Unit Unit where
  parseVM := .ok (classifyVM [StdOp.Alloc])
  parseASM := .ok (.inr ())
  parseLIR := .error "no LIR"
  compileLIR := fun _ => .error "no LIR"
  parseFrontend := .error "no frontend"
  compileFrontend := fun _ => .error "no frontend"
  assembleCore := fun _ => .ok []
  assembleStd := fun _ => .ok [StdOp.Alloc]
  flattenCore := fun p => p
  flattenStd := fun p => p
  showCore := fun _ => ""
  showCoreDebug := fun _ => ""
  showStd := fun _ => ""
  showStdDebug := fun _ => ""
  showCoreAsm := fun _ => ""
  showCoreAsmDebug := fun _ => ""
  showStdAsm := fun _ => ""
  showStdAsmDebug := fun _ => ""
  buildCoreMyOS := fun _ => .ok ""
  buildStdMyOS := fun _ => .ok ""
  buildCoreX86 := fun _ => .ok ""
  buildStdX86 := fun _ => .ok ""
  runCore := fun _ => .ok ()
  runStd := fun _ => .ok ()

/-- A state with the given tape, pointer at the origin, register 7, and
empty stacks and streams. -/
def sampleState (t : Int → Int) : VMState :=
  { tape := t, ptr := 0, reg := 7, refs := [], input := [], output := [] }

/-- The all-zero tape. -/
def tape0 : Int → Int := fun _ => 0

/-- A tape with 5 in cell 3 (register `A`) and 3 in cell 4 (register
`B`). -/
def tapeAB : Int → Int :=
  fun i => if i = 3 then 5 else if i = 4 then 3 else 0

/-- A tape with a stack pointer value 8 in cell 0 (`SP`) and 42 in cell 3
(register `A`). -/
def tapeStack : Int → Int :=
  fun i => if i = 3 then 42 else if i = 0 then 8 else 0

/-! ## Execution lemmas -/

@[simp]
theorem upd_same (t : Int → Int) (i v : Int) : upd t i v i = v := by
  simp [upd]

theorem upd_other (t : Int → Int) {i j : Int} (v : Int) (h : j ≠ i) :
    upd t i v j = t j := by
  simp [upd, h]

@[simp]
theorem upd_upd_same (t : Int → Int) (i a b : Int) : upd (upd t i a) i b = upd t i b := by
  funext j
  by_cases hj : j = i <;> simp [upd, hj]

theorem runningCtl_nil : RunningCtl [] := trivial

theorem runningCtl_execThen (fs : List Frame) : RunningCtl (Frame.execThen :: fs) := trivial

theorem runningCtl_execElse (fs : List Frame) : RunningCtl (Frame.execElse :: fs) := trivial

theorem stepOp_running (op : CoreOp) (fs : List Frame) (s : VMState) (h : RunningCtl fs) :
    stepOp op (fs, s) = stepRun op fs s := by
  cases fs with
  | nil => rfl
  | cons f r => cases f with
    | execThen => rfl
    | execElse => rfl
    | skipToElse => exact h.elim
    | skipOver => exact h.elim

theorem stepRun_plain (op : CoreOp) (fs : List Frame) (s : VMState) (hop : isCtl op = false) :
    stepRun op fs s = (execPlain op s).map (fun s2 => (fs, s2)) := by
  cases op <;> first
    | rfl
    | simp [isCtl] at hop

@[simp]
theorem execOps_nil (c : Config) : execOps [] c = some c := rfl

theorem execOps_cons (op : CoreOp) (t : List CoreOp) (c : Config) :
    execOps (op :: t) c =
      match stepOp op c with
      | none => none
      | some c2 => execOps t c2 := rfl

theorem execOps_append (a b : List CoreOp) (c : Config) :
    execOps (a ++ b) c =
      match execOps a c with
      | none => none
      | some c2 => execOps b c2 := by
  induction a generalizing c with
  | nil => simp
  | cons op t ih =>
      rw [List.cons_append, execOps_cons, execOps_cons]
      cases stepOp op c with
      | none => rfl
      | some c2 => exact ih c2

/-- Chaining form of `execOps_append`. -/
theorem execOps_append_some {a : List CoreOp} {c c1 : Config} (b : List CoreOp)
    (h : execOps a c = some c1) :
    execOps (a ++ b) c = execOps b c1 := by
  rw [execOps_append, h]

/-- Executing one non-control instruction in executing position. -/
theorem execOps_cons_plain (op : CoreOp) (t : List CoreOp) (fs : List Frame) (s : VMState)
    (h : RunningCtl fs) (hop : isCtl op = false) :
    execOps (op :: t) (fs, s) =
      match execPlain op s with
      | none => none
      | some s2 => execOps t (fs, s2) := by
  rw [execOps_cons, stepOp_running op fs s h, stepRun_plain op fs s hop]
  cases execPlain op s <;> rfl

/-- In a skipping frame, a non-control instruction is passed over. -/
theorem execOps_skip (ops : List CoreOp) (hops : ∀ op ∈ ops, isCtl op = false) :
    ∀ (f : Frame) (rest : List Frame) (s : VMState), (f = Frame.skipToElse ∨ f = Frame.skipOver) →
      execOps ops (f :: rest, s) = some (f :: rest, s) := by
  induction ops with
  | nil => intro f rest s _; rfl
  | cons op t ih =>
      intro f rest s hf
      have hop : isCtl op = false := hops op (List.mem_cons_self op t)
      have ht : ∀ op ∈ t, isCtl op = false := fun o ho => hops o (List.mem_cons_of_mem op ho)
      have hstep : stepOp op (f :: rest, s) = some (f :: rest, s) := by
        rcases hf with hf | hf <;> subst hf <;> cases op <;> first
          | rfl
          | simp [isCtl] at hop
      rw [execOps_cons, hstep]
      exact ih ht f rest s hf

theorem toOps_plain (L : Location) : ∀ op ∈ Location.toOps L, isCtl op = false := by
  induction L with
  | Address a => intro op hop; simp [Location.toOps] at hop; subst hop; rfl
  | Indirect l ih =>
      intro op hop
      simp only [Location.toOps, List.mem_append, List.mem_singleton] at hop
      rcases hop with hop | hop
      · exact ih op hop
      · subst hop; rfl
  | Offset l d ih =>
      intro op hop
      simp only [Location.toOps, List.mem_append, List.mem_singleton] at hop
      rcases hop with hop | hop
      · exact ih op hop
      · subst hop; rfl

theorem fromOps_plain (L : Location) : ∀ op ∈ Location.fromOps L, isCtl op = false := by
  induction L with
  | Address a => intro op hop; simp [Location.fromOps] at hop; subst hop; rfl
  | Indirect l ih =>
      intro op hop
      simp only [Location.fromOps, List.mem_cons] at hop
      rcases hop with hop | hop
      · subst hop; rfl
      · exact ih op hop
  | Offset l d ih =>
      intro op hop
      simp only [Location.fromOps, List.mem_cons] at hop
      rcases hop with hop | hop
      · subst hop; rfl
      · exact ih op hop

/-- Effect of `to(L)` in executing position: the pointer lands on the cell
`L` designates and one reference-stack entry is pushed per indirection; the
tape, register and streams are untouched. -/
theorem execOps_toOps (L : Location) :
    ∀ (fs : List Frame) (s : VMState), RunningCtl fs →
      execOps (Location.toOps L) (fs, s) =
        some (fs, { s with ptr := Location.target L s.tape s.ptr,
                           refs := Location.pushes L s.tape s.ptr ++ s.refs }) := by
  induction L with
  | Address a =>
      intro fs s h
      rw [Location.toOps, execOps_cons_plain (CoreOp.Move (a : Int)) [] fs s h rfl]
      rfl
  | Indirect l ih =>
      intro fs s h
      rw [Location.toOps, execOps_append_some [CoreOp.Deref] (ih fs s h),
        execOps_cons_plain CoreOp.Deref [] fs _ h rfl]
      rfl
  | Offset l d ih =>
      intro fs s h
      rw [Location.toOps, execOps_append_some [CoreOp.Move d] (ih fs s h),
        execOps_cons_plain (CoreOp.Move d) [] fs _ h rfl]
      rfl

/-- Effect of `from(L)` in executing position: given that the pointer sits
on the cell `L` designated on tape `t` from origin `p` and that the
reference stack still holds the entries `to(L)` pushed, the pointer returns
to `p` and the entries are popped.  `from` reads neither the tape nor the
register, so the tape may have changed since `to` ran. -/
theorem execOps_fromOps (L : Location) (t : Int → Int) (p : Int) :
    ∀ (fs : List Frame) (s : VMState) (R : List Int), RunningCtl fs →
      s.ptr = Location.target L t p → s.refs = Location.pushes L t p ++ R →
      execOps (Location.fromOps L) (fs, s) = some (fs, { s with ptr := p, refs := R }) := by
  induction L with
  | Address a =>
      intro fs s R h hptr hrefs
      simp only [Location.target] at hptr
      simp only [Location.pushes, List.nil_append] at hrefs
      rw [Location.fromOps, execOps_cons_plain (CoreOp.Move (-(a : Int))) [] fs s h rfl]
      simp only [execPlain, execOps_nil]
      obtain ⟨tp, pt, rg, rf, inp, out⟩ := s
      simp only at hptr hrefs
      subst hrefs
      simp only [Option.some.injEq, Prod.mk.injEq, VMState.mk.injEq, true_and, and_true]
      omega
  | Indirect l ih =>
      intro fs s R h hptr hrefs
      simp only [Location.pushes] at hrefs
      rw [Location.fromOps, execOps_cons_plain CoreOp.Refer (Location.fromOps l) fs s h rfl]
      have h1 : execPlain CoreOp.Refer s =
          some { s with ptr := Location.target l t p, refs := Location.pushes l t p ++ R } := by
        simp only [execPlain, hrefs]
        rfl
      rw [h1]
      exact ih fs { s with ptr := Location.target l t p, refs := Location.pushes l t p ++ R }
        R h rfl rfl
  | Offset l d ih =>
      intro fs s R h hptr hrefs
      simp only [Location.pushes] at hrefs
      simp only [Location.target] at hptr
      rw [Location.fromOps, execOps_cons_plain (CoreOp.Move (-d)) (Location.fromOps l) fs s h rfl]
      have h1 : execPlain (CoreOp.Move (-d)) s = some { s with ptr := Location.target l t p } := by
        simp only [execPlain]
        have h2 : s.ptr + -d = Location.target l t p := by omega
        rw [h2]
      rw [h1]
      exact ih fs { s with ptr := Location.target l t p } R h rfl hrefs

theorem execOps_append_none {a : List CoreOp} {c : Config} (b : List CoreOp)
    (h : execOps a c = none) :
    execOps (a ++ b) c = none := by
  rw [execOps_append, h]

theorem execOps_append_inv {a b : List CoreOp} {c out : Config}
    (h : execOps (a ++ b) c = some out) :
    ∃ mid, execOps a c = some mid ∧ execOps b mid = some out := by
  rw [execOps_append] at h
  cases hm : execOps a c with
  | none => rw [hm] at h; exact absurd h (by simp)
  | some mid => rw [hm] at h; exact ⟨mid, rfl, h⟩

/-! Single-instruction stepping lemmas in executing position. -/

theorem execOps_cons_set (n : Int) (t : List CoreOp) (fs : List Frame) (s : VMState)
    (h : RunningCtl fs) :
    execOps (CoreOp.Set n :: t) (fs, s) = execOps t (fs, { s with reg := n }) := by
  rw [execOps_cons_plain (CoreOp.Set n) t fs s h rfl]
  rfl

theorem execOps_cons_save (t : List CoreOp) (fs : List Frame) (s : VMState)
    (h : RunningCtl fs) :
    execOps (CoreOp.Save :: t) (fs, s) =
      execOps t (fs, { s with tape := upd s.tape s.ptr s.reg }) := by
  rw [execOps_cons_plain CoreOp.Save t fs s h rfl]
  rfl

theorem execOps_cons_restore (t : List CoreOp) (fs : List Frame) (s : VMState)
    (h : RunningCtl fs) :
    execOps (CoreOp.Restore :: t) (fs, s) = execOps t (fs, { s with reg := s.tape s.ptr }) := by
  rw [execOps_cons_plain CoreOp.Restore t fs s h rfl]
  rfl

theorem execOps_cons_where (t : List CoreOp) (fs : List Frame) (s : VMState)
    (h : RunningCtl fs) :
    execOps (CoreOp.Where :: t) (fs, s) = execOps t (fs, { s with reg := s.ptr }) := by
  rw [execOps_cons_plain CoreOp.Where t fs s h rfl]
  rfl

theorem execOps_cons_isNonNegative (t : List CoreOp) (fs : List Frame) (s : VMState)
    (h : RunningCtl fs) :
    execOps (CoreOp.IsNonNegative :: t) (fs, s) =
      execOps t (fs, { s with reg := if 0 ≤ s.reg then 1 else 0 }) := by
  rw [execOps_cons_plain CoreOp.IsNonNegative t fs s h rfl]
  rfl

theorem execOps_cons_add (t : List CoreOp) (fs : List Frame) (s : VMState)
    (h : RunningCtl fs) :
    execOps (CoreOp.Add :: t) (fs, s) =
      execOps t (fs, { s with reg := s.reg + s.tape s.ptr }) := by
  rw [execOps_cons_plain CoreOp.Add t fs s h rfl]
  rfl

theorem execOps_cons_if_true (t : List CoreOp) (fs : List Frame) (s : VMState)
    (h : RunningCtl fs) (hreg : s.reg ≠ 0) :
    execOps (CoreOp.If :: t) (fs, s) = execOps t (Frame.execThen :: fs, s) := by
  rw [execOps_cons, stepOp_running _ _ _ h]
  simp [stepRun, hreg]

theorem execOps_cons_if_false (t : List CoreOp) (fs : List Frame) (s : VMState)
    (h : RunningCtl fs) (hreg : s.reg = 0) :
    execOps (CoreOp.If :: t) (fs, s) = execOps t (Frame.skipToElse :: fs, s) := by
  rw [execOps_cons, stepOp_running _ _ _ h]
  simp [stepRun, hreg]

theorem execOps_cons_else_taken (t : List CoreOp) (fs : List Frame) (s : VMState) :
    execOps (CoreOp.Else :: t) (Frame.execThen :: fs, s) =
      execOps t (Frame.skipOver :: fs, s) := rfl

theorem execOps_cons_else_found (t : List CoreOp) (fs : List Frame) (s : VMState) :
    execOps (CoreOp.Else :: t) (Frame.skipToElse :: fs, s) =
      execOps t (Frame.execElse :: fs, s) := rfl

theorem execOps_cons_end_then (t : List CoreOp) (fs : List Frame) (s : VMState) :
    execOps (CoreOp.End :: t) (Frame.execThen :: fs, s) = execOps t (fs, s) := rfl

theorem execOps_cons_end_else (t : List CoreOp) (fs : List Frame) (s : VMState) :
    execOps (CoreOp.End :: t) (Frame.execElse :: fs, s) = execOps t (fs, s) := rfl

theorem execOps_cons_end_skipOver (t : List CoreOp) (fs : List Frame) (s : VMState) :
    execOps (CoreOp.End :: t) (Frame.skipOver :: fs, s) = execOps t (fs, s) := rfl

theorem execOps_cons_skip_set (n : Int) (t : List CoreOp) (f : Frame) (rest : List Frame)
    (s : VMState) (hf : f = Frame.skipToElse ∨ f = Frame.skipOver) :
    execOps (CoreOp.Set n :: t) (f :: rest, s) = execOps t (f :: rest, s) := by
  rcases hf with hf | hf <;> subst hf <;> rfl

/-! Plain-op facts for the emitted movement sequences. -/

theorem restore_from_plain (L : Location) :
    ∀ op ∈ Location.restore_from L, isCtl op = false := by
  intro op hop
  rw [Location.restore_from] at hop
  simp only [List.append_assoc, List.mem_append, List.mem_singleton, List.mem_cons,
    List.not_mem_nil, or_false] at hop
  rcases hop with hop | hop | hop
  · exact toOps_plain L op hop
  · subst hop; rfl
  · exact fromOps_plain L op hop

/-! Closed forms for the composite operations. -/

/-- `save_to(L)` writes the register into the cell `L` designates and
restores the pointer and reference stack. -/
theorem exec_save_to (L : Location) (fs : List Frame) (s : VMState) (h : RunningCtl fs) :
    execOps (Location.save_to L) (fs, s) =
      some (fs, { s with tape := upd s.tape (Location.target L s.tape s.ptr) s.reg }) := by
  rw [Location.save_to, List.append_assoc, execOps_append_some _ (execOps_toOps L fs s h),
    List.singleton_append, execOps_cons_save _ fs _ h]
  exact execOps_fromOps L s.tape s.ptr fs
    { s with tape := upd s.tape (Location.target L s.tape s.ptr) s.reg,
             ptr := Location.target L s.tape s.ptr,
             refs := Location.pushes L s.tape s.ptr ++ s.refs }
    s.refs h rfl rfl

/-- `restore_from(L)` loads the cell `L` designates into the register. -/
theorem exec_restore_from (L : Location) (fs : List Frame) (s : VMState) (h : RunningCtl fs) :
    execOps (Location.restore_from L) (fs, s) =
      some (fs, { s with reg := s.tape (Location.target L s.tape s.ptr) }) := by
  rw [Location.restore_from, List.append_assoc, execOps_append_some _ (execOps_toOps L fs s h),
    List.singleton_append, execOps_cons_restore _ fs _ h]
  exact execOps_fromOps L s.tape s.ptr fs
    { s with reg := s.tape (Location.target L s.tape s.ptr),
             ptr := Location.target L s.tape s.ptr,
             refs := Location.pushes L s.tape s.ptr ++ s.refs }
    s.refs h rfl rfl

/-- `copy_address_to(L, dst)` records the absolute address of `L` in the
register and stores it at `dst`. -/
theorem exec_copy_address_to (L dst : Location) (fs : List Frame) (s : VMState)
    (h : RunningCtl fs) :
    execOps (Location.copy_address_to L dst) (fs, s) =
      some (fs, { s with reg := Location.target L s.tape s.ptr,
                         tape := upd s.tape (Location.target dst s.tape s.ptr)
                                   (Location.target L s.tape s.ptr) }) := by
  have h1 : execOps (Location.toOps L ++ [CoreOp.Where] ++ Location.fromOps L) (fs, s) =
      some (fs, { s with reg := Location.target L s.tape s.ptr }) := by
    rw [List.append_assoc, execOps_append_some _ (execOps_toOps L fs s h),
      List.singleton_append, execOps_cons_where _ fs _ h]
    exact execOps_fromOps L s.tape s.ptr fs
      { s with reg := Location.target L s.tape s.ptr,
               ptr := Location.target L s.tape s.ptr,
               refs := Location.pushes L s.tape s.ptr ++ s.refs }
      s.refs h rfl rfl
  rw [Location.copy_address_to, execOps_append_some _ h1]
  exact exec_save_to dst fs { s with reg := Location.target L s.tape s.ptr } h

/-- `copy_to(L, other)` copies the value of `L` into `other` through the
register. -/
theorem exec_copy_to (L other : Location) (fs : List Frame) (s : VMState) (h : RunningCtl fs) :
    execOps (Location.copy_to L other) (fs, s) =
      some (fs, { s with reg := s.tape (Location.target L s.tape s.ptr),
                         tape := upd s.tape (Location.target other s.tape s.ptr)
                                   (s.tape (Location.target L s.tape s.ptr)) }) := by
  rw [Location.copy_to, execOps_append_some _ (exec_restore_from L fs s h)]
  exact exec_save_to other fs { s with reg := s.tape (Location.target L s.tape s.ptr) } h

/-- `set(L, n)` stores the constant `n` at `L`. -/
theorem exec_set (L : Location) (n : Int) (fs : List Frame) (s : VMState) (h : RunningCtl fs) :
    execOps (Location.set L n) (fs, s) =
      some (fs, { s with reg := n,
                         tape := upd s.tape (Location.target L s.tape s.ptr) n }) := by
  rw [Location.set, execOps_cons_set n _ fs s h]
  exact exec_save_to L fs { s with reg := n } h

/-- `whole_int(L)` replaces the cell `L` designates by 1 when it is
nonnegative and 0 otherwise. -/
theorem exec_whole_int (L : Location) (fs : List Frame) (s : VMState) (h : RunningCtl fs) :
    execOps (Location.whole_int L) (fs, s) =
      some (fs, { s with
        reg := if 0 ≤ s.tape (Location.target L s.tape s.ptr) then 1 else 0,
        tape := upd s.tape (Location.target L s.tape s.ptr)
                  (if 0 ≤ s.tape (Location.target L s.tape s.ptr) then 1 else 0) }) := by
  rw [Location.whole_int, List.append_assoc, execOps_append_some _ (execOps_toOps L fs s h),
    List.cons_append, execOps_cons_restore _ fs _ h,
    List.cons_append, execOps_cons_isNonNegative _ fs _ h,
    List.singleton_append, execOps_cons_save _ fs _ h]
  exact execOps_fromOps L s.tape s.ptr fs
    { s with
        tape := upd s.tape (Location.target L s.tape s.ptr)
                  (if 0 ≤ s.tape (Location.target L s.tape s.ptr) then 1 else 0),
        reg := if 0 ≤ s.tape (Location.target L s.tape s.ptr) then 1 else 0,
        ptr := Location.target L s.tape s.ptr,
        refs := Location.pushes L s.tape s.ptr ++ s.refs }
    s.refs h rfl rfl

/-- `inc(L)` increments the cell `L` designates, leaving the incremented
value in the register. -/
theorem exec_inc (L : Location) (fs : List Frame) (s : VMState) (h : RunningCtl fs) :
    execOps (Location.inc L) (fs, s) =
      some (fs, { s with
        reg := 1 + s.tape (Location.target L s.tape s.ptr),
        tape := upd s.tape (Location.target L s.tape s.ptr)
                  (1 + s.tape (Location.target L s.tape s.ptr)) }) := by
  simp only [Location.inc, Location.incReg, List.append_assoc, List.cons_append,
    List.singleton_append, List.nil_append]
  rw [execOps_append_some _ (execOps_toOps L fs s h),
    execOps_cons_restore _ fs _ h, execOps_cons_save _ fs _ h,
    execOps_cons_set 1 _ fs _ h, execOps_cons_add _ fs _ h,
    execOps_cons_save _ fs _ h]
  simp only [upd_same, upd_upd_same]
  exact execOps_fromOps L s.tape s.ptr fs
    { s with
        reg := 1 + s.tape (Location.target L s.tape s.ptr),
        tape := upd s.tape (Location.target L s.tape s.ptr)
                  (1 + s.tape (Location.target L s.tape s.ptr)),
        ptr := Location.target L s.tape s.ptr,
        refs := Location.pushes L s.tape s.ptr ++ s.refs }
    s.refs h rfl rfl

/-- `dec(L)` decrements the cell `L` designates, leaving the decremented
value in the register. -/
theorem exec_dec (L : Location) (fs : List Frame) (s : VMState) (h : RunningCtl fs) :
    execOps (Location.dec L) (fs, s) =
      some (fs, { s with
        reg := -1 + s.tape (Location.target L s.tape s.ptr),
        tape := upd s.tape (Location.target L s.tape s.ptr)
                  (-1 + s.tape (Location.target L s.tape s.ptr)) }) := by
  simp only [Location.dec, Location.decReg, List.append_assoc, List.cons_append,
    List.singleton_append, List.nil_append]
  rw [execOps_append_some _ (execOps_toOps L fs s h),
    execOps_cons_restore _ fs _ h, execOps_cons_save _ fs _ h,
    execOps_cons_set (-1) _ fs _ h, execOps_cons_add _ fs _ h,
    execOps_cons_save _ fs _ h]
  simp only [upd_same, upd_upd_same]
  exact execOps_fromOps L s.tape s.ptr fs
    { s with
        reg := -1 + s.tape (Location.target L s.tape s.ptr),
        tape := upd s.tape (Location.target L s.tape s.ptr)
                  (-1 + s.tape (Location.target L s.tape s.ptr)),
        ptr := Location.target L s.tape s.ptr,
        refs := Location.pushes L s.tape s.ptr ++ s.refs }
    s.refs h rfl rfl

/-- `binop(op, L, S)` for an arithmetic instruction whose effect on the
register is `f`: when `f` succeeds the result replaces both the register
and the cell `L` designates; when it fails (division by zero) execution
fails. -/
theorem exec_binop (op : CoreOp) (f : Int → Int → Option Int) (hop : isCtl op = false)
    (hstep : ∀ s2 : VMState,
      execPlain op s2 = (f s2.reg (s2.tape s2.ptr)).map (fun r => { s2 with reg := r }))
    (L S : Location) (fs : List Frame) (s : VMState) (h : RunningCtl fs) :
    execOps (Location.binop op L S) (fs, s) =
      (f (s.tape (Location.target L s.tape s.ptr))
         (s.tape (Location.target S s.tape s.ptr))).map
        (fun r => (fs, { s with reg := r,
                                tape := upd s.tape (Location.target L s.tape s.ptr) r })) := by
  simp only [Location.binop, List.append_assoc, List.cons_append, List.singleton_append,
    List.nil_append]
  rw [execOps_append_some _ (exec_restore_from L fs s h)]
  rw [execOps_append_some _ (execOps_toOps S fs
    { s with reg := s.tape (Location.target L s.tape s.ptr) } h)]
  rw [execOps_cons_plain op _ fs _ h hop, hstep]
  try dsimp only
  cases hf : f (s.tape (Location.target L s.tape s.ptr))
      (s.tape (Location.target S s.tape s.ptr)) with
  | none => rfl
  | some r =>
      dsimp only [Option.map]
      rw [execOps_append_some _ (execOps_fromOps S s.tape s.ptr fs
        { s with reg := r,
                 ptr := Location.target S s.tape s.ptr,
                 refs := Location.pushes S s.tape s.ptr ++ s.refs }
        s.refs h rfl rfl)]
      exact exec_save_to L fs { s with reg := r } h

/-- `not(L)` replaces the cell `L` designates by 1 when it is zero and by 0
otherwise, on both branches restoring the pointer. -/
theorem exec_not (L : Location) (fs : List Frame) (s : VMState) (h : RunningCtl fs) :
    execOps (Location.not L) (fs, s) =
      some (fs, { s with
        reg := if s.tape (Location.target L s.tape s.ptr) = 0 then 1 else 0,
        tape := upd s.tape (Location.target L s.tape s.ptr)
                  (if s.tape (Location.target L s.tape s.ptr) = 0 then 1 else 0) }) := by
  simp only [Location.not, List.append_assoc, List.cons_append, List.singleton_append,
    List.nil_append]
  rw [execOps_append_some _ (execOps_toOps L fs s h), execOps_cons_restore _ fs _ h]
  by_cases hv : s.tape (Location.target L s.tape s.ptr) = 0
  · rw [execOps_cons_if_false _ fs _ h hv,
      execOps_cons_skip_set 0 _ Frame.skipToElse fs _ (Or.inl rfl),
      execOps_cons_else_found _ fs _,
      execOps_cons_set 1 _ (Frame.execElse :: fs) _ (runningCtl_execElse fs),
      execOps_cons_end_else _ fs _,
      execOps_cons_save _ fs _ h]
    simp only [if_pos hv]
    exact execOps_fromOps L s.tape s.ptr fs
      { s with reg := 1,
               tape := upd s.tape (Location.target L s.tape s.ptr) 1,
               ptr := Location.target L s.tape s.ptr,
               refs := Location.pushes L s.tape s.ptr ++ s.refs }
      s.refs h rfl rfl
  · rw [execOps_cons_if_true _ fs _ h hv,
      execOps_cons_set 0 _ (Frame.execThen :: fs) _ (runningCtl_execThen fs),
      execOps_cons_else_taken _ fs _,
      execOps_cons_skip_set 1 _ Frame.skipOver fs _ (Or.inr rfl),
      execOps_cons_end_skipOver _ fs _,
      execOps_cons_save _ fs _ h]
    simp only [if_neg hv]
    exact execOps_fromOps L s.tape s.ptr fs
      { s with reg := 0,
               tape := upd s.tape (Location.target L s.tape s.ptr) 0,
               ptr := Location.target L s.tape s.ptr,
               refs := Location.pushes L s.tape s.ptr ++ s.refs }
      s.refs h rfl rfl

/-- `and(L, S)` leaves the cell `L` designates unchanged at 0 when it was
zero, never touching `S`; when it was nonzero the raw value of `S` replaces
`L` (no normalisation to 1). -/
theorem exec_and (L S : Location) (fs : List Frame) (s : VMState) (h : RunningCtl fs) :
    execOps (Location.and L S) (fs, s) =
      some (fs,
        if s.tape (Location.target L s.tape s.ptr) = 0 then
          { s with reg := 0, tape := upd s.tape (Location.target L s.tape s.ptr) 0 }
        else
          { s with reg := s.tape (Location.target S s.tape s.ptr),
                   tape := upd s.tape (Location.target L s.tape s.ptr)
                             (s.tape (Location.target S s.tape s.ptr)) }) := by
  simp only [Location.and, List.append_assoc, List.cons_append, List.singleton_append,
    List.nil_append]
  rw [execOps_append_some _ (execOps_toOps L fs s h), execOps_cons_restore _ fs _ h]
  by_cases hv : s.tape (Location.target L s.tape s.ptr) = 0
  · rw [execOps_cons_if_false _ fs _ h hv]
    try dsimp only
    rw [execOps_append_some _ (execOps_skip (Location.fromOps L) (fromOps_plain L)
      Frame.skipToElse fs
      { s with ptr := Location.target L s.tape s.ptr,
               reg := s.tape (Location.target L s.tape s.ptr),
               refs := Location.pushes L s.tape s.ptr ++ s.refs }
      (Or.inl rfl))]
    rw [execOps_append_some _ (execOps_skip (Location.restore_from S) (restore_from_plain S)
      Frame.skipToElse fs
      { s with ptr := Location.target L s.tape s.ptr,
               reg := s.tape (Location.target L s.tape s.ptr),
               refs := Location.pushes L s.tape s.ptr ++ s.refs }
      (Or.inl rfl))]
    rw [execOps_append_some _ (execOps_skip (Location.toOps L) (toOps_plain L)
      Frame.skipToElse fs
      { s with ptr := Location.target L s.tape s.ptr,
               reg := s.tape (Location.target L s.tape s.ptr),
               refs := Location.pushes L s.tape s.ptr ++ s.refs }
      (Or.inl rfl))]
    rw [execOps_cons_else_found _ fs _,
      execOps_cons_set 0 _ (Frame.execElse :: fs) _ (runningCtl_execElse fs),
      execOps_cons_end_else _ fs _,
      execOps_cons_save _ fs _ h]
    simp only [if_pos hv]
    exact execOps_fromOps L s.tape s.ptr fs
      { s with reg := 0,
               tape := upd s.tape (Location.target L s.tape s.ptr) 0,
               ptr := Location.target L s.tape s.ptr,
               refs := Location.pushes L s.tape s.ptr ++ s.refs }
      s.refs h rfl rfl
  · rw [execOps_cons_if_true _ fs _ h hv]
    try dsimp only
    rw [execOps_append_some _ (execOps_fromOps L s.tape s.ptr (Frame.execThen :: fs)
      { s with ptr := Location.target L s.tape s.ptr,
               reg := s.tape (Location.target L s.tape s.ptr),
               refs := Location.pushes L s.tape s.ptr ++ s.refs }
      s.refs (runningCtl_execThen fs) rfl rfl)]
    try dsimp only
    rw [execOps_append_some _ (exec_restore_from S (Frame.execThen :: fs)
      { s with reg := s.tape (Location.target L s.tape s.ptr) } (runningCtl_execThen fs))]
    try dsimp only
    rw [execOps_append_some _ (execOps_toOps L (Frame.execThen :: fs)
      { s with reg := s.tape (Location.target S s.tape s.ptr) } (runningCtl_execThen fs))]
    try dsimp only
    rw [execOps_cons_else_taken _ fs _,
      execOps_cons_skip_set 0 _ Frame.skipOver fs _ (Or.inr rfl),
      execOps_cons_end_skipOver _ fs _,
      execOps_cons_save _ fs _ h]
    simp only [if_neg hv]
    exact execOps_fromOps L s.tape s.ptr fs
      { s with reg := s.tape (Location.target S s.tape s.ptr),
               tape := upd s.tape (Location.target L s.tape s.ptr)
                         (s.tape (Location.target S s.tape s.ptr)),
               ptr := Location.target L s.tape s.ptr,
               refs := Location.pushes L s.tape s.ptr ++ s.refs }
      s.refs h rfl rfl

/-- `or(L, S)` replaces the cell `L` designates by 1 when it was nonzero,
never touching `S`; when it was zero the raw value of `S` replaces `L`. -/
theorem exec_or (L S : Location) (fs : List Frame) (s : VMState) (h : RunningCtl fs) :
    execOps (Location.or L S) (fs, s) =
      some (fs,
        if s.tape (Location.target L s.tape s.ptr) = 0 then
          { s with reg := s.tape (Location.target S s.tape s.ptr),
                   tape := upd s.tape (Location.target L s.tape s.ptr)
                             (s.tape (Location.target S s.tape s.ptr)) }
        else
          { s with reg := 1, tape := upd s.tape (Location.target L s.tape s.ptr) 1 }) := by
  simp only [Location.or, List.append_assoc, List.cons_append, List.singleton_append,
    List.nil_append]
  rw [execOps_append_some _ (execOps_toOps L fs s h), execOps_cons_restore _ fs _ h]
  by_cases hv : s.tape (Location.target L s.tape s.ptr) = 0
  · rw [execOps_cons_if_false _ fs _ h hv,
      execOps_cons_skip_set 1 _ Frame.skipToElse fs _ (Or.inl rfl),
      execOps_cons_else_found _ fs _]
    try dsimp only
    rw [execOps_append_some _ (execOps_fromOps L s.tape s.ptr (Frame.execElse :: fs)
      { s with ptr := Location.target L s.tape s.ptr,
               reg := s.tape (Location.target L s.tape s.ptr),
               refs := Location.pushes L s.tape s.ptr ++ s.refs }
      s.refs (runningCtl_execElse fs) rfl rfl)]
    try dsimp only
    rw [execOps_append_some _ (exec_restore_from S (Frame.execElse :: fs)
      { s with reg := s.tape (Location.target L s.tape s.ptr) } (runningCtl_execElse fs))]
    try dsimp only
    rw [execOps_append_some _ (execOps_toOps L (Frame.execElse :: fs)
      { s with reg := s.tape (Location.target S s.tape s.ptr) } (runningCtl_execElse fs))]
    try dsimp only
    rw [execOps_cons_end_else _ fs _, execOps_cons_save _ fs _ h]
    simp only [if_pos hv]
    exact execOps_fromOps L s.tape s.ptr fs
      { s with reg := s.tape (Location.target S s.tape s.ptr),
               tape := upd s.tape (Location.target L s.tape s.ptr)
                         (s.tape (Location.target S s.tape s.ptr)),
               ptr := Location.target L s.tape s.ptr,
               refs := Location.pushes L s.tape s.ptr ++ s.refs }
      s.refs h rfl rfl
  · rw [execOps_cons_if_true _ fs _ h hv,
      execOps_cons_set 1 _ (Frame.execThen :: fs) _ (runningCtl_execThen fs),
      execOps_cons_else_taken _ fs _]
    try dsimp only
    rw [execOps_append_some _ (execOps_skip (Location.fromOps L) (fromOps_plain L)
      Frame.skipOver fs
      { s with ptr := Location.target L s.tape s.ptr, reg := 1,
               refs := Location.pushes L s.tape s.ptr ++ s.refs }
      (Or.inr rfl))]
    rw [execOps_append_some _ (execOps_skip (Location.restore_from S) (restore_from_plain S)
      Frame.skipOver fs
      { s with ptr := Location.target L s.tape s.ptr, reg := 1,
               refs := Location.pushes L s.tape s.ptr ++ s.refs }
      (Or.inr rfl))]
    rw [execOps_append_some _ (execOps_skip (Location.toOps L) (toOps_plain L)
      Frame.skipOver fs
      { s with ptr := Location.target L s.tape s.ptr, reg := 1,
               refs := Location.pushes L s.tape s.ptr ++ s.refs }
      (Or.inr rfl))]
    rw [execOps_cons_end_skipOver _ fs _, execOps_cons_save _ fs _ h]
    simp only [if_neg hv]
    exact execOps_fromOps L s.tape s.ptr fs
      { s with reg := 1,
               tape := upd s.tape (Location.target L s.tape s.ptr) 1,
               ptr := Location.target L s.tape s.ptr,
               refs := Location.pushes L s.tape s.ptr ++ s.refs }
      s.refs h rfl rfl

/-- `is_greater_than(L, S)` computes `a - b` into `TMP` (the cell right of
the pointer origin), decrements, tests nonnegativity and stores the result
at `L`: the register and `L` end at 1 when `a > b` and 0 otherwise, and
`TMP` holds the same flag.  The hypotheses say that the cells `L` and `S`
designate do not move when `TMP` is overwritten and that `S` does not
designate `TMP` itself. -/
theorem exec_is_greater_than (L S : Location) (fs : List Frame) (s : VMState)
    (h : RunningCtl fs)
    (hL : ∀ t2 : Int → Int, (∀ i, i ≠ s.ptr + 1 → t2 i = s.tape i) →
      Location.target L t2 s.ptr = Location.target L s.tape s.ptr)
    (hS : ∀ t2 : Int → Int, (∀ i, i ≠ s.ptr + 1 → t2 i = s.tape i) →
      Location.target S t2 s.ptr = Location.target S s.tape s.ptr)
    (hSt : Location.target S s.tape s.ptr ≠ s.ptr + 1) :
    execOps (Location.is_greater_than L S) (fs, s) =
      some (fs, { s with
        reg := if 0 ≤ -1 + (s.tape (Location.target L s.tape s.ptr)
                              - s.tape (Location.target S s.tape s.ptr)) then 1 else 0,
        tape := upd
          (upd s.tape (s.ptr + 1)
            (if 0 ≤ -1 + (s.tape (Location.target L s.tape s.ptr)
                            - s.tape (Location.target S s.tape s.ptr)) then 1 else 0))
          (Location.target L s.tape s.ptr)
          (if 0 ≤ -1 + (s.tape (Location.target L s.tape s.ptr)
                          - s.tape (Location.target S s.tape s.ptr)) then 1 else 0) }) := by
  have hagree : ∀ (x : Int) (i : Int), i ≠ s.ptr + 1 → upd s.tape (s.ptr + 1) x i = s.tape i :=
    fun x i hi => upd_other _ _ hi
  have hTMP : ∀ (t2 : Int → Int) (p2 : Int), Location.target Location.TMP t2 p2 = p2 + 1 :=
    fun t2 p2 => rfl
  have e1 : execOps (Location.copy_to L Location.TMP) (fs, s) =
      some (fs, { s with
        reg := s.tape (Location.target L s.tape s.ptr),
        tape := upd s.tape (s.ptr + 1) (s.tape (Location.target L s.tape s.ptr)) }) := by
    rw [exec_copy_to L Location.TMP fs s h, hTMP]
  have e2 : execOps (Location.binop CoreOp.Sub Location.TMP S)
      (fs, { s with
        reg := s.tape (Location.target L s.tape s.ptr),
        tape := upd s.tape (s.ptr + 1) (s.tape (Location.target L s.tape s.ptr)) }) =
      some (fs, { s with
        reg := s.tape (Location.target L s.tape s.ptr)
                 - s.tape (Location.target S s.tape s.ptr),
        tape := upd s.tape (s.ptr + 1)
                  (s.tape (Location.target L s.tape s.ptr)
                    - s.tape (Location.target S s.tape s.ptr)) }) := by
    rw [exec_binop CoreOp.Sub (fun x y => some (x - y)) rfl (fun s2 => rfl) Location.TMP S fs
      { s with
        reg := s.tape (Location.target L s.tape s.ptr),
        tape := upd s.tape (s.ptr + 1) (s.tape (Location.target L s.tape s.ptr)) } h]
    dsimp only [Option.map]
    rw [hTMP, hS _ (hagree _), upd_same, upd_other _ _ hSt, upd_upd_same]
  have e3 : execOps (Location.dec Location.TMP)
      (fs, { s with
        reg := s.tape (Location.target L s.tape s.ptr)
                 - s.tape (Location.target S s.tape s.ptr),
        tape := upd s.tape (s.ptr + 1)
                  (s.tape (Location.target L s.tape s.ptr)
                    - s.tape (Location.target S s.tape s.ptr)) }) =
      some (fs, { s with
        reg := -1 + (s.tape (Location.target L s.tape s.ptr)
                      - s.tape (Location.target S s.tape s.ptr)),
        tape := upd s.tape (s.ptr + 1)
                  (-1 + (s.tape (Location.target L s.tape s.ptr)
                          - s.tape (Location.target S s.tape s.ptr))) }) := by
    rw [exec_dec Location.TMP fs _ h]
    dsimp only
    rw [hTMP, upd_same, upd_upd_same]
  have e4 : execOps (Location.whole_int Location.TMP)
      (fs, { s with
        reg := -1 + (s.tape (Location.target L s.tape s.ptr)
                      - s.tape (Location.target S s.tape s.ptr)),
        tape := upd s.tape (s.ptr + 1)
                  (-1 + (s.tape (Location.target L s.tape s.ptr)
                          - s.tape (Location.target S s.tape s.ptr))) }) =
      some (fs, { s with
        reg := if 0 ≤ -1 + (s.tape (Location.target L s.tape s.ptr)
                              - s.tape (Location.target S s.tape s.ptr)) then 1 else 0,
        tape := upd s.tape (s.ptr + 1)
                  (if 0 ≤ -1 + (s.tape (Location.target L s.tape s.ptr)
                                  - s.tape (Location.target S s.tape s.ptr)) then 1 else 0) }) := by
    rw [exec_whole_int Location.TMP fs _ h]
    dsimp only
    rw [hTMP, upd_same, upd_upd_same]
  have e5 : execOps (Location.save_to L)
      (fs, { s with
        reg := if 0 ≤ -1 + (s.tape (Location.target L s.tape s.ptr)
                              - s.tape (Location.target S s.tape s.ptr)) then 1 else 0,
        tape := upd s.tape (s.ptr + 1)
                  (if 0 ≤ -1 + (s.tape (Location.target L s.tape s.ptr)
                                  - s.tape (Location.target S s.tape s.ptr)) then 1 else 0) }) =
      some (fs, { s with
        reg := if 0 ≤ -1 + (s.tape (Location.target L s.tape s.ptr)
                              - s.tape (Location.target S s.tape s.ptr)) then 1 else 0,
        tape := upd
          (upd s.tape (s.ptr + 1)
            (if 0 ≤ -1 + (s.tape (Location.target L s.tape s.ptr)
                            - s.tape (Location.target S s.tape s.ptr)) then 1 else 0))
          (Location.target L s.tape s.ptr)
          (if 0 ≤ -1 + (s.tape (Location.target L s.tape s.ptr)
                          - s.tape (Location.target S s.tape s.ptr)) then 1 else 0) }) := by
    rw [exec_save_to L fs _ h]
    dsimp only
    rw [hL _ (hagree _)]
  simp only [Location.is_greater_than, Location.sub, List.append_assoc]
  rw [execOps_append_some _ e1, execOps_append_some _ e2, execOps_append_some _ e3,
    execOps_append_some _ e4]
  exact e5

/-- `is_less_or_equal_to(L, S)` computes `b - a` into `TMP`, tests
nonnegativity and stores the result at `L`: the register and `L` end at 1
when `a ≤ b` and 0 otherwise.  Here `L` is the cell read while `TMP` is
overwritten, so the non-aliasing hypotheses fall on `L`. -/
theorem exec_is_less_or_equal_to (L S : Location) (fs : List Frame) (s : VMState)
    (h : RunningCtl fs)
    (hL : ∀ t2 : Int → Int, (∀ i, i ≠ s.ptr + 1 → t2 i = s.tape i) →
      Location.target L t2 s.ptr = Location.target L s.tape s.ptr)
    (hLt : Location.target L s.tape s.ptr ≠ s.ptr + 1) :
    execOps (Location.is_less_or_equal_to L S) (fs, s) =
      some (fs, { s with
        reg := if 0 ≤ s.tape (Location.target S s.tape s.ptr)
                      - s.tape (Location.target L s.tape s.ptr) then 1 else 0,
        tape := upd
          (upd s.tape (s.ptr + 1)
            (if 0 ≤ s.tape (Location.target S s.tape s.ptr)
                    - s.tape (Location.target L s.tape s.ptr) then 1 else 0))
          (Location.target L s.tape s.ptr)
          (if 0 ≤ s.tape (Location.target S s.tape s.ptr)
                  - s.tape (Location.target L s.tape s.ptr) then 1 else 0) }) := by
  have hagree : ∀ (x : Int) (i : Int), i ≠ s.ptr + 1 → upd s.tape (s.ptr + 1) x i = s.tape i :=
    fun x i hi => upd_other _ _ hi
  have hTMP : ∀ (t2 : Int → Int) (p2 : Int), Location.target Location.TMP t2 p2 = p2 + 1 :=
    fun t2 p2 => rfl
  have e1 : execOps (Location.copy_to S Location.TMP) (fs, s) =
      some (fs, { s with
        reg := s.tape (Location.target S s.tape s.ptr),
        tape := upd s.tape (s.ptr + 1) (s.tape (Location.target S s.tape s.ptr)) }) := by
    rw [exec_copy_to S Location.TMP fs s h, hTMP]
  have e2 : execOps (Location.binop CoreOp.Sub Location.TMP L)
      (fs, { s with
        reg := s.tape (Location.target S s.tape s.ptr),
        tape := upd s.tape (s.ptr + 1) (s.tape (Location.target S s.tape s.ptr)) }) =
      some (fs, { s with
        reg := s.tape (Location.target S s.tape s.ptr)
                 - s.tape (Location.target L s.tape s.ptr),
        tape := upd s.tape (s.ptr + 1)
                  (s.tape (Location.target S s.tape s.ptr)
                    - s.tape (Location.target L s.tape s.ptr)) }) := by
    rw [exec_binop CoreOp.Sub (fun x y => some (x - y)) rfl (fun s2 => rfl) Location.TMP L fs
      { s with
        reg := s.tape (Location.target S s.tape s.ptr),
        tape := upd s.tape (s.ptr + 1) (s.tape (Location.target S s.tape s.ptr)) } h]
    dsimp only [Option.map]
    rw [hTMP, hL _ (hagree _), upd_same, upd_other _ _ hLt, upd_upd_same]
  have e3 : execOps (Location.whole_int Location.TMP)
      (fs, { s with
        reg := s.tape (Location.target S s.tape s.ptr)
                 - s.tape (Location.target L s.tape s.ptr),
        tape := upd s.tape (s.ptr + 1)
                  (s.tape (Location.target S s.tape s.ptr)
                    - s.tape (Location.target L s.tape s.ptr)) }) =
      some (fs, { s with
        reg := if 0 ≤ s.tape (Location.target S s.tape s.ptr)
                      - s.tape (Location.target L s.tape s.ptr) then 1 else 0,
        tape := upd s.tape (s.ptr + 1)
                  (if 0 ≤ s.tape (Location.target S s.tape s.ptr)
                          - s.tape (Location.target L s.tape s.ptr) then 1 else 0) }) := by
    rw [exec_whole_int Location.TMP fs _ h]
    dsimp only
    rw [hTMP, upd_same, upd_upd_same]
  have e4 : execOps (Location.save_to L)
      (fs, { s with
        reg := if 0 ≤ s.tape (Location.target S s.tape s.ptr)
                      - s.tape (Location.target L s.tape s.ptr) then 1 else 0,
        tape := upd s.tape (s.ptr + 1)
                  (if 0 ≤ s.tape (Location.target S s.tape s.ptr)
                          - s.tape (Location.target L s.tape s.ptr) then 1 else 0) }) =
      some (fs, { s with
        reg := if 0 ≤ s.tape (Location.target S s.tape s.ptr)
                      - s.tape (Location.target L s.tape s.ptr) then 1 else 0,
        tape := upd
          (upd s.tape (s.ptr + 1)
            (if 0 ≤ s.tape (Location.target S s.tape s.ptr)
                    - s.tape (Location.target L s.tape s.ptr) then 1 else 0))
          (Location.target L s.tape s.ptr)
          (if 0 ≤ s.tape (Location.target S s.tape s.ptr)
                  - s.tape (Location.target L s.tape s.ptr) then 1 else 0) }) := by
    rw [exec_save_to L fs _ h]
    dsimp only
    rw [hL _ (hagree _)]
  simp only [Location.is_less_or_equal_to, Location.sub, List.append_assoc]
  rw [execOps_append_some _ e1, execOps_append_some _ e2, execOps_append_some _ e3]
  exact e4

/-! ## Pointer restoration -/

theorem ptrSafe_append {a b : List CoreOp} (ha : PtrSafe a) (hb : PtrSafe b) :
    PtrSafe (a ++ b) := by
  intro fs s out h hexec
  obtain ⟨mid, hm, hrest⟩ := execOps_append_inv hexec
  obtain ⟨hm1, hm2⟩ := ha fs s mid h hm
  have hrun : RunningCtl mid.1 := by rw [hm1]; exact h
  obtain ⟨ho1, ho2⟩ := hb mid.1 mid.2 out hrun hrest
  exact ⟨by rw [ho1, hm1], by rw [ho2, hm2]⟩

theorem ptrSafe_of_closed {ops : List CoreOp}
    (hc : ∀ (fs : List Frame) (s : VMState), RunningCtl fs →
      ∃ s2, execOps ops (fs, s) = some (fs, s2) ∧ s2.ptr = s.ptr) :
    PtrSafe ops := by
  intro fs s out h hexec
  obtain ⟨s2, he, hp⟩ := hc fs s h
  rw [he] at hexec
  have h2 := Option.some.inj hexec
  subst h2
  exact ⟨rfl, hp⟩

theorem ptrSafe_save_to (L : Location) : PtrSafe (Location.save_to L) :=
  ptrSafe_of_closed (fun fs s h => ⟨_, exec_save_to L fs s h, rfl⟩)

theorem ptrSafe_restore_from (L : Location) : PtrSafe (Location.restore_from L) :=
  ptrSafe_of_closed (fun fs s h => ⟨_, exec_restore_from L fs s h, rfl⟩)

theorem ptrSafe_copy_address_to (L dst : Location) : PtrSafe (Location.copy_address_to L dst) :=
  ptrSafe_of_closed (fun fs s h => ⟨_, exec_copy_address_to L dst fs s h, rfl⟩)

theorem ptrSafe_copy_to (L other : Location) : PtrSafe (Location.copy_to L other) :=
  ptrSafe_of_closed (fun fs s h => ⟨_, exec_copy_to L other fs s h, rfl⟩)

theorem ptrSafe_set (L : Location) (n : Int) : PtrSafe (Location.set L n) :=
  ptrSafe_of_closed (fun fs s h => ⟨_, exec_set L n fs s h, rfl⟩)

theorem ptrSafe_whole_int (L : Location) : PtrSafe (Location.whole_int L) :=
  ptrSafe_of_closed (fun fs s h => ⟨_, exec_whole_int L fs s h, rfl⟩)

theorem ptrSafe_inc (L : Location) : PtrSafe (Location.inc L) :=
  ptrSafe_of_closed (fun fs s h => ⟨_, exec_inc L fs s h, rfl⟩)

theorem ptrSafe_dec (L : Location) : PtrSafe (Location.dec L) :=
  ptrSafe_of_closed (fun fs s h => ⟨_, exec_dec L fs s h, rfl⟩)

theorem ptrSafe_not (L : Location) : PtrSafe (Location.not L) :=
  ptrSafe_of_closed (fun fs s h => ⟨_, exec_not L fs s h, rfl⟩)

theorem ptrSafe_and (L S : Location) : PtrSafe (Location.and L S) :=
  ptrSafe_of_closed (fun fs s h =>
    ⟨_, exec_and L S fs s h, by split <;> rfl⟩)

theorem ptrSafe_or (L S : Location) : PtrSafe (Location.or L S) :=
  ptrSafe_of_closed (fun fs s h =>
    ⟨_, exec_or L S fs s h, by split <;> rfl⟩)

theorem ptrSafe_binop (op : CoreOp) (f : Int → Int → Option Int) (hop : isCtl op = false)
    (hstep : ∀ s2 : VMState,
      execPlain op s2 = (f s2.reg (s2.tape s2.ptr)).map (fun r => { s2 with reg := r }))
    (L S : Location) : PtrSafe (Location.binop op L S) := by
  intro fs s out h hexec
  rw [exec_binop op f hop hstep L S fs s h] at hexec
  cases hf : f (s.tape (Location.target L s.tape s.ptr))
      (s.tape (Location.target S s.tape s.ptr)) with
  | none => rw [hf] at hexec; exact absurd hexec (by simp)
  | some r =>
      rw [hf] at hexec
      simp only [Option.map] at hexec
      have h2 := Option.some.inj hexec
      subst h2
      exact ⟨rfl, rfl⟩

/-- One theorem covering every composite operation: the emitted sequence
restores the frame stack and the data pointer whenever it completes. -/
theorem ptrSafe_emit (c : CompositeOp) : PtrSafe c.emit := by
  cases c with
  | set l n => exact ptrSafe_set l n
  | save_to l => exact ptrSafe_save_to l
  | restore_from l => exact ptrSafe_restore_from l
  | copy_to l other => exact ptrSafe_copy_to l other
  | copy_address_to l dst => exact ptrSafe_copy_address_to l dst
  | inc l => exact ptrSafe_inc l
  | dec l => exact ptrSafe_dec l
  | add l other =>
      exact ptrSafe_binop CoreOp.Add (fun x y => some (x + y)) rfl (fun s2 => rfl) l other
  | sub l other =>
      exact ptrSafe_binop CoreOp.Sub (fun x y => some (x - y)) rfl (fun s2 => rfl) l other
  | mul l other =>
      exact ptrSafe_binop CoreOp.Mul (fun x y => some (x * y)) rfl (fun s2 => rfl) l other
  | div l other =>
      refine ptrSafe_binop CoreOp.Div (fun x y => if y = 0 then none else some (Int.tdiv x y))
        rfl (fun s2 => ?_) l other
      by_cases hz : s2.tape s2.ptr = 0 <;> simp [execPlain, hz]
  | rem l other =>
      refine ptrSafe_binop CoreOp.Rem (fun x y => if y = 0 then none else some (Int.tmod x y))
        rfl (fun s2 => ?_) l other
      by_cases hz : s2.tape s2.ptr = 0 <;> simp [execPlain, hz]
  | not l => exact ptrSafe_not l
  | and l src => exact ptrSafe_and l src
  | or l src => exact ptrSafe_or l src
  | whole_int l => exact ptrSafe_whole_int l
  | is_greater_than l src =>
      exact ptrSafe_append (ptrSafe_append (ptrSafe_append (ptrSafe_append
        (ptrSafe_copy_to l Location.TMP)
        (ptrSafe_binop CoreOp.Sub (fun x y => some (x - y)) rfl (fun s2 => rfl) Location.TMP src))
        (ptrSafe_dec Location.TMP))
        (ptrSafe_whole_int Location.TMP))
        (ptrSafe_save_to l)
  | is_greater_or_equal_to l src =>
      exact ptrSafe_append (ptrSafe_append (ptrSafe_append
        (ptrSafe_copy_to l Location.TMP)
        (ptrSafe_binop CoreOp.Sub (fun x y => some (x - y)) rfl (fun s2 => rfl) Location.TMP src))
        (ptrSafe_whole_int Location.TMP))
        (ptrSafe_save_to l)
  | is_less_than l src =>
      exact ptrSafe_append (ptrSafe_append (ptrSafe_append (ptrSafe_append
        (ptrSafe_copy_to src Location.TMP)
        (ptrSafe_binop CoreOp.Sub (fun x y => some (x - y)) rfl (fun s2 => rfl) Location.TMP l))
        (ptrSafe_dec Location.TMP))
        (ptrSafe_whole_int Location.TMP))
        (ptrSafe_save_to l)
  | is_less_or_equal_to l src =>
      exact ptrSafe_append (ptrSafe_append (ptrSafe_append
        (ptrSafe_copy_to src Location.TMP)
        (ptrSafe_binop CoreOp.Sub (fun x y => some (x - y)) rfl (fun s2 => rfl) Location.TMP l))
        (ptrSafe_whole_int Location.TMP))
        (ptrSafe_save_to l)
  | push l =>
      exact ptrSafe_append
        (ptrSafe_copy_address_to ((Location.SP.deref).offset 1) Location.SP)
        (ptrSafe_copy_to l Location.SP.deref)
  | pop l =>
      exact ptrSafe_append
        (ptrSafe_copy_to Location.SP.deref l)
        (ptrSafe_copy_address_to ((Location.SP.deref).offset (-1)) Location.SP)
  | next l count => exact ptrSafe_copy_address_to ((l.deref).offset count) l
  | prev l count => exact ptrSafe_copy_address_to ((l.deref).offset (-count)) l

theorem run_of_execOps {ops : List CoreOp} {s s2 : VMState}
    (h : execOps ops ([], s) = some ([], s2)) : run ops s = some s2 := by
  unfold run
  rw [h]

theorem run_ptr_eq {ops : List CoreOp} {s s2 : VMState} (hps : PtrSafe ops)
    (hr : run ops s = some s2) : s2.ptr = s.ptr := by
  unfold run at hr
  cases hexec : execOps ops ([], s) with
  | none => rw [hexec] at hr; exact absurd hr (by simp)
  | some out =>
      rw [hexec] at hr
      obtain ⟨fso, so⟩ := out
      cases fso with
      | nil =>
          have h2 := hps [] s ([], so) runningCtl_nil hexec
          have h3 : so = s2 := by simpa using hr
          rw [← h3]
          exact h2.2
      | cons f r => exact absurd hr (by simp)

/-- Running `to(L)` directly followed by `from(L)` is the identity on the
whole VM state. -/
theorem run_to_from (L : Location) (s : VMState) :
    run (Location.toOps L ++ Location.fromOps L) s = some s := by
  apply run_of_execOps
  rw [execOps_append_some _ (execOps_toOps L [] s runningCtl_nil)]
  exact execOps_fromOps L s.tape s.ptr []
    { s with ptr := Location.target L s.tape s.ptr,
             refs := Location.pushes L s.tape s.ptr ++ s.refs }
    s.refs runningCtl_nil rfl rfl

/-- The `from` sequence is the reversed `to` sequence with every
instruction inverted. -/
theorem fromOps_eq_mirror (L : Location) :
    Location.fromOps L = (Location.toOps L).reverse.map invOp := by
  induction L with
  | Address a => rfl
  | Indirect l ih =>
      simp [Location.toOps, Location.fromOps, ih, invOp]
  | Offset l d ih =>
      simp [Location.toOps, Location.fromOps, ih, invOp]

/-! ## Claims -/

/-- C1: For every Location L and every composite operation on L (set,
save_to, restore_from, copy_to, copy_address_to, inc, dec, the binary
arithmetic ops, not, and, or, whole_int, the comparisons, push, pop, next,
prev), executing the VM instruction sequence the operation emits returns
the data pointer to the value it had before the operation, on every
execution path of the sequence. -/
theorem c1_pointer_restoration (c : CompositeOp) (s s2 : VMState)
    (h : run c.emit s = some s2) : s2.ptr = s.ptr :=
  run_ptr_eq (ptrSafe_emit c) h

theorem c1_pointer_restoration_witness :
    ({ tape := upd tape0 3 7, ptr := 0, reg := 7, refs := [], input := [],
       output := [] } : VMState).ptr = (sampleState tape0).ptr :=
  c1_pointer_restoration (CompositeOp.save_to Location.A) (sampleState tape0)
    { tape := upd tape0 3 7, ptr := 0, reg := 7, refs := [], input := [], output := [] } rfl

/-- C2: For every Location L and signed offsets a and b, the sequence
emitted for `to(Offset(Offset(L, a), b))` followed by
`from(Offset(Offset(L, a), b))` is semantically equivalent to that for
`to(Offset(L, a+b))` followed by `from(Offset(L, a+b))`: from the same
state both produce the same tape, final pointer and reference stack (both
are the identity); the two locations designate the same cell; and
`Offset(Address(k), d)` designates the same cell as `Address(k+d)`. -/
theorem c2_offset_algebra (L : Location) (a b : Int) (s : VMState) :
    run (Location.toOps (Location.Offset (Location.Offset L a) b)
          ++ Location.fromOps (Location.Offset (Location.Offset L a) b)) s = some s ∧
    run (Location.toOps (Location.Offset L (a + b))
          ++ Location.fromOps (Location.Offset L (a + b))) s = some s ∧
    Location.target (Location.Offset (Location.Offset L a) b) s.tape s.ptr =
      Location.target (Location.Offset L (a + b)) s.tape s.ptr ∧
    (∀ (k : Nat) (d : Int), 0 ≤ (k : Int) + d →
      Location.target (Location.Offset (Location.Address k) d) s.tape s.ptr =
        Location.target (Location.Address ((k : Int) + d).toNat) s.tape s.ptr) := by
  refine ⟨run_to_from _ s, run_to_from _ s, ?_, ?_⟩
  · simp [Location.target, add_assoc]
  · intro k d hkd
    simp [Location.target, Int.toNat_of_nonneg hkd, add_assoc]

theorem c2_offset_algebra_witness :
    Location.target (Location.Offset (Location.Address 5) (-2)) (sampleState tape0).tape
        (sampleState tape0).ptr =
      Location.target (Location.Address 3) (sampleState tape0).tape (sampleState tape0).ptr := by
  have h := (c2_offset_algebra (Location.Address 0) 1 2 (sampleState tape0)).2.2.2 5 (-2)
    (by decide)
  exact h

/-- C5: For every Location L, `to(L)` followed by `from(L)` leaves the
reference-stack depth unchanged: the number of `Deref` instructions in
`to(L)` equals the number of `Refer` instructions in `from(L)`, they pair
in reverse order (`from` is the reversed, instruction-inverted `to`), and
running the concatenation leaves the whole state, the reference stack
included, unchanged. -/
theorem c5_indirection_pairing (L : Location) :
    (Location.toOps L).count CoreOp.Deref = (Location.fromOps L).count CoreOp.Refer ∧
    Location.fromOps L = (Location.toOps L).reverse.map invOp ∧
    ∀ s : VMState, run (Location.toOps L ++ Location.fromOps L) s = some s := by
  refine ⟨?_, fromOps_eq_mirror L, fun s => run_to_from L s⟩
  induction L with
  | Address a => rfl
  | Indirect l ih =>
      simp [Location.toOps, Location.fromOps, List.count_append, List.count_cons, ih]
  | Offset l d ih =>
      simp [Location.toOps, Location.fromOps, List.count_append, List.count_cons, ih]

/-- C10: For every pair of locations L and S, `and(L, S)` leaves L holding
exactly the original value of S's cell when L's original value was nonzero
(the raw value, not normalised to 1), leaves L holding 0 when L's original
value was zero, and on the zero branch never reads S: the run is the same
for every source location. -/
theorem c10_and_raw_value (L S : Location) (s : VMState) :
    (s.tape (Location.target L s.tape s.ptr) ≠ 0 →
      run (Location.and L S) s =
        some { s with reg := s.tape (Location.target S s.tape s.ptr),
                      tape := upd s.tape (Location.target L s.tape s.ptr)
                                (s.tape (Location.target S s.tape s.ptr)) }) ∧
    (s.tape (Location.target L s.tape s.ptr) = 0 →
      run (Location.and L S) s =
        some { s with reg := 0,
                      tape := upd s.tape (Location.target L s.tape s.ptr) 0 }) ∧
    (s.tape (Location.target L s.tape s.ptr) = 0 →
      ∀ S2 : Location, run (Location.and L S2) s = run (Location.and L S) s) := by
  have hrun : ∀ S2 : Location, run (Location.and L S2) s =
      some (if s.tape (Location.target L s.tape s.ptr) = 0 then
          { s with reg := 0, tape := upd s.tape (Location.target L s.tape s.ptr) 0 }
        else
          { s with reg := s.tape (Location.target S2 s.tape s.ptr),
                   tape := upd s.tape (Location.target L s.tape s.ptr)
                             (s.tape (Location.target S2 s.tape s.ptr)) }) := by
    intro S2
    unfold run
    rw [exec_and L S2 [] s runningCtl_nil]
  refine ⟨fun hv => ?_, fun hv => ?_, fun hv S2 => ?_⟩
  · rw [hrun S, if_neg hv]
  · rw [hrun S, if_pos hv]
  · rw [hrun S, hrun S2, if_pos hv, if_pos hv]

theorem c10_and_raw_value_witness :
    ((run (Location.and Location.A Location.B) (sampleState tapeAB)).map
      (fun s2 => (s2.reg, s2.tape 3))) = some (3, 3) := by
  rw [(c10_and_raw_value Location.A Location.B (sampleState tapeAB)).1 (by decide)]
  decide

/-- C6: For all integer cell values a at L and b at S, provided L and S do
not designate the scratch cell `TMP` and their resolution does not read it,
`is_greater_than(L, S)` leaves L holding 1 exactly when a > b and 0
otherwise, and `is_less_or_equal_to(L, S)` leaves L holding 1 exactly when
a ≤ b and 0 otherwise (subtraction cannot overflow in the model). -/
theorem c6_comparisons (L S : Location) (s : VMState)
    (hL : ∀ t2 : Int → Int, (∀ i, i ≠ s.ptr + 1 → t2 i = s.tape i) →
      Location.target L t2 s.ptr = Location.target L s.tape s.ptr)
    (hS : ∀ t2 : Int → Int, (∀ i, i ≠ s.ptr + 1 → t2 i = s.tape i) →
      Location.target S t2 s.ptr = Location.target S s.tape s.ptr)
    (hLt : Location.target L s.tape s.ptr ≠ s.ptr + 1)
    (hSt : Location.target S s.tape s.ptr ≠ s.ptr + 1) :
    ((run (Location.is_greater_than L S) s).map
        (fun s2 => s2.tape (Location.target L s.tape s.ptr))) =
      some (if s.tape (Location.target S s.tape s.ptr)
              < s.tape (Location.target L s.tape s.ptr) then 1 else 0) ∧
    ((run (Location.is_less_or_equal_to L S) s).map
        (fun s2 => s2.tape (Location.target L s.tape s.ptr))) =
      some (if s.tape (Location.target L s.tape s.ptr)
              ≤ s.tape (Location.target S s.tape s.ptr) then 1 else 0) := by
  constructor
  · have hr := run_of_execOps (exec_is_greater_than L S [] s runningCtl_nil hL hS hSt)
    rw [hr]
    dsimp only [Option.map]
    rw [upd_same]
    by_cases hab : s.tape (Location.target S s.tape s.ptr)
        < s.tape (Location.target L s.tape s.ptr)
    · rw [if_pos (by omega), if_pos hab]
    · rw [if_neg (by omega), if_neg hab]
  · have hr := run_of_execOps (exec_is_less_or_equal_to L S [] s runningCtl_nil hL hLt)
    rw [hr]
    dsimp only [Option.map]
    rw [upd_same]
    by_cases hab : s.tape (Location.target L s.tape s.ptr)
        ≤ s.tape (Location.target S s.tape s.ptr)
    · rw [if_pos (by omega), if_pos hab]
    · rw [if_neg (by omega), if_neg hab]

theorem c6_comparisons_witness :
    ((run (Location.is_greater_than Location.A Location.B) (sampleState tapeAB)).map
        (fun s2 => s2.tape 3)) = some 1 ∧
    ((run (Location.is_less_or_equal_to Location.A Location.B) (sampleState tapeAB)).map
        (fun s2 => s2.tape 3)) = some 0 := by
  have h := c6_comparisons Location.A Location.B (sampleState tapeAB)
    (fun t2 _ => rfl) (fun t2 _ => rfl) (by decide) (by decide)
  exact ⟨h.1.trans (by decide), h.2.trans (by decide)⟩

/-- C9: For every Location L designating a cell disjoint from SP's cell and
from the stack slot above the stack pointer, whose resolution reads neither,
and for every state with the data pointer at the origin and a stack-pointer
value whose successor slot is not cell 0, `push(L)` followed by `pop(L)` is
a round trip: the value at L and the address stored in SP's cell are the
same afterward as before. -/
theorem c9_push_pop_round_trip (L : Location) (s : VMState)
    (hp : s.ptr = 0)
    (hL : ∀ t2 : Int → Int, (∀ i, i ≠ 0 → i ≠ s.tape 0 + 1 → t2 i = s.tape i) →
      Location.target L t2 0 = Location.target L s.tape 0)
    (h0 : Location.target L s.tape 0 ≠ 0)
    (hsp : Location.target L s.tape 0 ≠ s.tape 0 + 1)
    (hs0 : s.tape 0 + 1 ≠ 0) :
    ((run (Location.push L ++ Location.pop L) s).map
      (fun s2 => (s2.tape (Location.target L s.tape 0), s2.tape 0))) =
      some (s.tape (Location.target L s.tape 0), s.tape 0) := by
  obtain ⟨tp, pt, rg, rf, inp, out⟩ := s
  simp only at hp hL h0 hsp hs0 ⊢
  obtain rfl : pt = 0 := hp
  have ht1 : Location.target L (upd tp 0 (tp 0 + 1)) 0 = Location.target L tp 0 :=
    hL _ (fun i hi _ => upd_other _ _ hi)
  have ht4 : Location.target L
      (upd (upd tp 0 (tp 0 + 1)) (tp 0 + 1) (tp (Location.target L tp 0))) 0 =
      Location.target L tp 0 :=
    hL _ (fun i hi0 hi1 => by rw [upd_other _ _ hi1, upd_other _ _ hi0])
  have e1 : execOps (Location.copy_address_to ((Location.SP.deref).offset 1) Location.SP)
      ([], (⟨tp, 0, rg, rf, inp, out⟩ : VMState)) =
      some ([], ⟨upd tp 0 (tp 0 + 1), 0, tp 0 + 1, rf, inp, out⟩) := by
    rw [exec_copy_address_to ((Location.SP.deref).offset 1) Location.SP []
      ⟨tp, 0, rg, rf, inp, out⟩ runningCtl_nil]
    rfl
  have e2 : execOps (Location.copy_to L Location.SP.deref)
      ([], (⟨upd tp 0 (tp 0 + 1), 0, tp 0 + 1, rf, inp, out⟩ : VMState)) =
      some ([], ⟨upd (upd tp 0 (tp 0 + 1)) (tp 0 + 1) (tp (Location.target L tp 0)), 0,
        tp (Location.target L tp 0), rf, inp, out⟩) := by
    rw [exec_copy_to L Location.SP.deref []
      ⟨upd tp 0 (tp 0 + 1), 0, tp 0 + 1, rf, inp, out⟩ runningCtl_nil]
    dsimp only
    have ht2 : Location.target Location.SP.deref (upd tp 0 (tp 0 + 1)) 0 = tp 0 + 1 :=
      upd_same tp 0 (tp 0 + 1)
    rw [ht1, ht2, upd_other _ _ h0]
  have e3 : execOps (Location.copy_to Location.SP.deref L)
      ([], (⟨upd (upd tp 0 (tp 0 + 1)) (tp 0 + 1) (tp (Location.target L tp 0)), 0,
        tp (Location.target L tp 0), rf, inp, out⟩ : VMState)) =
      some ([], ⟨upd (upd (upd tp 0 (tp 0 + 1)) (tp 0 + 1) (tp (Location.target L tp 0)))
          (Location.target L tp 0) (tp (Location.target L tp 0)), 0,
        tp (Location.target L tp 0), rf, inp, out⟩) := by
    rw [exec_copy_to Location.SP.deref L []
      ⟨upd (upd tp 0 (tp 0 + 1)) (tp 0 + 1) (tp (Location.target L tp 0)), 0,
        tp (Location.target L tp 0), rf, inp, out⟩ runningCtl_nil]
    dsimp only
    have ht3 : Location.target Location.SP.deref
        (upd (upd tp 0 (tp 0 + 1)) (tp 0 + 1) (tp (Location.target L tp 0))) 0 = tp 0 + 1 := by
      show (upd (upd tp 0 (tp 0 + 1)) (tp 0 + 1) (tp (Location.target L tp 0))) (0 + (0 : Nat)) =
        tp 0 + 1
      rw [show ((0 : Int) + ((0 : Nat) : Int)) = 0 from rfl,
        upd_other _ _ (Ne.symm hs0), upd_same]
    rw [ht3, ht4, upd_same]
  have h30 : (upd (upd (upd tp 0 (tp 0 + 1)) (tp 0 + 1) (tp (Location.target L tp 0)))
      (Location.target L tp 0) (tp (Location.target L tp 0))) 0 = tp 0 + 1 := by
    rw [upd_other _ _ (Ne.symm h0), upd_other _ _ (Ne.symm hs0), upd_same]
  have e4 : execOps (Location.copy_address_to ((Location.SP.deref).offset (-1)) Location.SP)
      ([], (⟨upd (upd (upd tp 0 (tp 0 + 1)) (tp 0 + 1) (tp (Location.target L tp 0)))
          (Location.target L tp 0) (tp (Location.target L tp 0)), 0,
        tp (Location.target L tp 0), rf, inp, out⟩ : VMState)) =
      some ([], ⟨upd (upd (upd (upd tp 0 (tp 0 + 1)) (tp 0 + 1) (tp (Location.target L tp 0)))
          (Location.target L tp 0) (tp (Location.target L tp 0))) 0 (tp 0 + 1 + -1), 0,
        tp 0 + 1 + -1, rf, inp, out⟩) := by
    rw [exec_copy_address_to ((Location.SP.deref).offset (-1)) Location.SP []
      ⟨upd (upd (upd tp 0 (tp 0 + 1)) (tp 0 + 1) (tp (Location.target L tp 0)))
          (Location.target L tp 0) (tp (Location.target L tp 0)), 0,
        tp (Location.target L tp 0), rf, inp, out⟩ runningCtl_nil]
    dsimp only
    have ht5 : Location.target ((Location.SP.deref).offset (-1))
        (upd (upd (upd tp 0 (tp 0 + 1)) (tp 0 + 1) (tp (Location.target L tp 0)))
          (Location.target L tp 0) (tp (Location.target L tp 0))) 0 = tp 0 + 1 + -1 :=
      congrArg (fun x => x + -1) h30
    rw [ht5]
    rfl
  have hall : execOps (Location.push L ++ Location.pop L)
      ([], (⟨tp, 0, rg, rf, inp, out⟩ : VMState)) =
      some ([], ⟨upd (upd (upd (upd tp 0 (tp 0 + 1)) (tp 0 + 1) (tp (Location.target L tp 0)))
          (Location.target L tp 0) (tp (Location.target L tp 0))) 0 (tp 0 + 1 + -1), 0,
        tp 0 + 1 + -1, rf, inp, out⟩) := by
    rw [Location.push, Location.pop]
    simp only [List.append_assoc]
    rw [execOps_append_some _ e1, execOps_append_some _ e2, execOps_append_some _ e3]
    exact e4
  rw [run_of_execOps hall]
  dsimp only [Option.map]
  rw [upd_other _ _ h0, upd_same, upd_same]
  simp only [Option.some.injEq, Prod.mk.injEq]
  exact ⟨trivial, by omega⟩

theorem c9_push_pop_round_trip_witness :
    ((run (Location.push Location.A ++ Location.pop Location.A) (sampleState tapeStack)).map
      (fun s2 => (s2.tape 3, s2.tape 0))) = some (42, 8) := by
  have h := c9_push_pop_round_trip Location.A (sampleState tapeStack) rfl
    (fun t2 _ => rfl) (by decide) (by decide) (by decide)
  exact h.trans (by decide)

/-- Forgetting the payload of `build_core`'s result leaves the outcome of
its emission loop: the final string append changes only the `ok`
payload. -/
theorem build_core_shape (ops : List CoreOp) :
    (build_core ops).shape = (coreEmitLoop ops coreInit).shape := by
  rw [build_core]
  cases coreEmitLoop ops coreInit <;> rfl

/-- Forgetting the payload of `build_std`'s result leaves the outcome of
its emission loop. -/
theorem build_std_shape (ops : List StdOp) :
    (build_std ops).shape = (stdEmitLoop ops stdInit).shape := by
  rw [build_std]
  cases stdEmitLoop ops stdInit <;> rfl

/-- The emission loop of `build_core` follows the pure block scan: from
any state whose `funs` stack is exactly as deep as the number of open
`Function` blocks — as in every state the loop reaches from `coreInit` —
the outcome (`Ok`, the error text, or the panic) is the outcome of
`coreScan` on the remaining program over the state's matching stack and
indentation counter.  The depth hypothesis makes the `funs.pop().unwrap()`
panic unreachable. -/
theorem coreEmitLoop_outcome (ops : List CoreOp) :
    ∀ st : CEmitState, st.funs.length = st.matching.count CoreOp.Function →
      (coreEmitLoop ops st).shape = coreScan ops st.matching st.indent := by
  induction ops with
  | nil => intro st h; rfl
  | cons op t ih =>
    intro st h
    cases op
    case Function =>
      simp only [coreEmitLoop, coreStep, coreScan]
      refine ih _ ?_
      simpa [List.count_cons] using h
    case Else =>
      rcases hm : st.matching with _ | ⟨m, rest⟩
      · rw [hm] at h
        simp [coreEmitLoop, coreStep, coreScan, hm, EmitOutcome.shape]
      · rw [hm] at h
        cases m
        case If =>
          by_cases hi : st.indent = 0
          · simp [coreEmitLoop, coreStep, coreScan, hm, hi, EmitOutcome.shape]
          · simp only [coreEmitLoop, coreStep, coreScan, hm, if_neg hi]
            refine ih _ ?_
            simpa [List.count_cons] using h
        all_goals simp [coreEmitLoop, coreStep, coreScan, hm, EmitOutcome.shape]
    case End =>
      by_cases hi : st.indent = 0
      · simp [coreEmitLoop, coreStep, coreScan, hi, EmitOutcome.shape]
      · rcases hm : st.matching with _ | ⟨m, rest⟩
        · rw [hm] at h
          simp only [coreEmitLoop, coreStep, coreScan, hm, if_neg hi, List.tail_nil]
          refine ih _ ?_
          simpa using h
        · rw [hm] at h
          cases m <;>
            first
            | (rcases hf : st.funs with _ | ⟨f, fr⟩ <;> rw [hf] at h <;>
                simp only [List.length_nil, List.length_cons, List.count_cons_self] at h <;>
                first
                | exact absurd h (by omega)
                | (simp only [coreEmitLoop, coreStep, coreScan, hm, hf, if_neg hi,
                      List.tail_cons]
                   refine ih _ ?_
                   exact Nat.succ_injective h))
            | (simp only [coreEmitLoop, coreStep, coreScan, hm, if_neg hi, List.tail_cons]
               refine ih _ ?_
               simpa [List.count_cons] using h)
    all_goals
      simp only [coreEmitLoop, coreStep, coreScan]
      refine ih _ ?_
      exact h

/-- The emission loop of `build_std` follows the pure block scan, under
the same `funs`-depth hypothesis as `coreEmitLoop_outcome`. -/
theorem stdEmitLoop_outcome (ops : List StdOp) :
    ∀ st : CEmitState, st.funs.length = st.matching.count CoreOp.Function →
      (stdEmitLoop ops st).shape = stdScan ops st.matching st.indent := by
  induction ops with
  | nil => intro st h; rfl
  | cons op t ih =>
    intro st h
    cases op
    case CoreOp c =>
      cases c
      case Function =>
        simp only [stdEmitLoop, stdStep, stdScan]
        refine ih _ ?_
        simpa [List.count_cons] using h
      case Else =>
        by_cases hi : st.indent = 0
        · simp [stdEmitLoop, stdStep, stdScan, hi, EmitOutcome.shape]
        · simp only [stdEmitLoop, stdStep, stdScan, if_neg hi]
          refine ih _ ?_
          exact h
      case End =>
        by_cases hi : st.indent = 0
        · simp [stdEmitLoop, stdStep, stdScan, hi, EmitOutcome.shape]
        · rcases hm : st.matching with _ | ⟨m, rest⟩
          · rw [hm] at h
            simp only [stdEmitLoop, stdStep, stdScan, hm, if_neg hi, List.tail_nil]
            refine ih _ ?_
            simpa using h
          · rw [hm] at h
            cases m <;>
              first
              | (rcases hf : st.funs with _ | ⟨f, fr⟩ <;> rw [hf] at h <;>
                  simp only [List.length_nil, List.length_cons, List.count_cons_self] at h <;>
                  first
                  | exact absurd h (by omega)
                  | (simp only [stdEmitLoop, stdStep, stdScan, hm, hf, if_neg hi,
                        List.tail_cons]
                     refine ih _ ?_
                     exact Nat.succ_injective h))
              | (simp only [stdEmitLoop, stdStep, stdScan, hm, if_neg hi, List.tail_cons]
                 refine ih _ ?_
                 simpa [List.count_cons] using h)
      all_goals
        first
        | (simp only [stdEmitLoop, stdStep, stdScan]
           refine ih _ ?_
           exact h)
        | (rename_i n
           rcases le_or_lt 0 n with hn | hn
           · simp only [stdEmitLoop, stdStep, stdScan, if_pos hn]
             refine ih _ ?_
             exact h
           · simp only [stdEmitLoop, stdStep, stdScan, if_neg (not_le.mpr hn)]
             refine ih _ ?_
             exact h)
    all_goals
      simp only [stdEmitLoop, stdStep, stdScan]
      refine ih _ ?_
      exact h

/-- `stdScan` has no error outcome: `build_std`'s loop checks nothing at
an `Else`, so a scan ends in `ok` or in the underflow panic. -/
theorem stdScan_ne_error (ops : List StdOp) :
    ∀ (m : List CoreOp) (i : Nat) (e : String),
      stdScan ops m i ≠ EmitOutcome.error e := by
  induction ops with
  | nil => intro m i e; simp [stdScan]
  | cons op t ih =>
    intro m i e
    cases op
    case CoreOp c =>
      cases c
      case Else =>
        by_cases hi : i = 0
        · simp [stdScan, hi]
        · simpa [stdScan, hi] using ih m i e
      case End =>
        by_cases hi : i = 0
        · simp [stdScan, hi]
        · simpa [stdScan, hi] using ih m.tail (i - 1) e
      all_goals simpa [stdScan] using ih _ _ e
    all_goals simpa [stdScan] using ih _ _ e

/-- C3 (amended): the `Ok`/`BuildError`/panic outcome of `build_core` is
the block scan of the program from an empty matching stack at indentation
one — so it returns a `BuildError` exactly on an `Else` whose innermost
open block is not an `If`, accepts unmatched opens and a first unmatched
`End` with `Ok`, and panics on the `usize` indentation underflow of a
further unmatched `End`; `build_std`'s outcome is the checkless scan, so it
never returns an error: it ends in `Ok` or in the underflow panic. -/
theorem c3_amended_build_errors (ops : List CoreOp) (sops : List StdOp) :
    (build_core ops).shape = coreScan ops [] 1 ∧
    (build_std sops).shape = stdScan sops [] 1 ∧
    ∀ e, build_std sops ≠ EmitOutcome.error e := by
  have hcore : (build_core ops).shape = coreScan ops [] 1 := by
    rw [build_core_shape]
    exact coreEmitLoop_outcome ops coreInit rfl
  have hstd : (build_std sops).shape = stdScan sops [] 1 := by
    rw [build_std_shape]
    exact stdEmitLoop_outcome sops stdInit rfl
  refine ⟨hcore, hstd, fun e hc => ?_⟩
  refine stdScan_ne_error sops [] 1 e ?_
  rw [← hstd, hc]
  rfl

/-- C3 counterexample: the claim says both entry points return an error on
every ill-bracketed input; in fact `build_core` accepts a lone `End` (no
opener) and a lone unclosed `If`, `build_std` accepts a lone `Else`, and a
block close past indentation zero does not return at all: `build_std` on
`[End, Else]` and `build_core` on `[End, End, Set 0]` panic on the
unguarded `usize` subtraction instead of producing an `Err`. -/
theorem c3_counterexample :
    (build_core [CoreOp.End]).isOk = true ∧
    (build_core [CoreOp.If]).isOk = true ∧
    (build_std [StdOp.CoreOp CoreOp.Else]).isOk = true ∧
    build_std [StdOp.CoreOp CoreOp.End, StdOp.CoreOp CoreOp.Else] = EmitOutcome.panic ∧
    build_core [CoreOp.End, CoreOp.End, CoreOp.Set 0] = EmitOutcome.panic :=
  ⟨rfl, rfl, rfl, rfl, rfl⟩

/-- C4 (amended): `build_core` lowers `Get(src)` for every channel to the
statement reading one byte from standard input with -1 on EOF, and
`Put(dst)` for every channel to `putchar` on standard output; `build_std`
emits no code at all for `Get` and `Put` (the arms are commented out in
the source). -/
theorem c4_amended_get_put_lowering (st : CEmitState) (src dst : Int) :
    coreStep st (CoreOp.Get src) =
      .ok { st with result := st.result ++ tabs st.indent
        ++ "reg.i = (reg.i = getchar()) == EOF? -1 : reg.i;\n" } ∧
    coreStep st (CoreOp.Put dst) =
      .ok { st with result := st.result ++ tabs st.indent ++ "putchar(reg.i);\n" } ∧
    stdStep st (StdOp.CoreOp (CoreOp.Get src)) = .ok st ∧
    stdStep st (StdOp.CoreOp (CoreOp.Put dst)) = .ok st :=
  ⟨rfl, rfl, rfl, rfl⟩

set_option maxRecDepth 4096 in
/-- C4 counterexample: the claim says `build_std` also lowers `Get(0)` and
`Put(0)` to byte I/O; in fact its output on a program made of those two ops
is identical to its output on the empty program, while `build_core` does
emit the I/O statements. -/
theorem c4_counterexample :
    build_std [StdOp.CoreOp (CoreOp.Get 0), StdOp.CoreOp (CoreOp.Put 0)] = build_std [] ∧
    build_core [CoreOp.Get 0, CoreOp.Put 0] ≠ build_core [] :=
  ⟨rfl, by decide⟩

/-- C7: Any input whose parsed program contains a Standard-only op is
rejected with `InvalidSource` when a core variant is requested: the
spec-modelled parser classifies such a program as the standard branch, the
`CoreVM` and `CoreASM` source types reject the standard branch outright,
and the `CoreVM` and `CoreASM` target types reject whenever the earlier
stages hand them a standard program. -/
theorem c7_downgrade_rejection {CA SA LIRP FE : Type} (ext : Externals CA SA LIRP FE)
    (p : List StdOp) (hp : containsStdOnly p = true) :
    classifyVM p = Sum.inr p ∧
    (ext.parseVM = .ok (classifyVM p) →
      compile_source_to_vm ext SourceType.CoreVM =
        .error (.InvalidSource "expected core VM program, got standard VM program")) ∧
    (∀ sa : SA, ext.parseASM = .ok (.inr sa) →
      compile_source_to_vm ext SourceType.CoreASM =
        .error (.InvalidSource "expected core assembly program, got standard assembly program")) ∧
    (∀ sa : SA, ext.parseASM = .ok (.inr sa) →
      compile_source_to_asm ext SourceType.CoreASM =
        .error (.InvalidSource "expected core assembly program, got standard assembly program")) ∧
    (∀ (srcType : SourceType) (out : String) (dbg : Bool),
      compile_source_to_vm ext srcType = .ok (.inr p) →
      compile ext srcType TargetType.CoreVM out dbg =
        .error (.InvalidSource "expected core VM program, got standard VM program")) ∧
    (∀ (srcType : SourceType) (out : String) (dbg : Bool) (sa : SA),
      compile_source_to_asm ext srcType = .ok (.inr sa) →
      compile ext srcType TargetType.CoreASM out dbg =
        .error (.InvalidSource "expected core assembly program, got standard assembly program")) := by
  have hcl : classifyVM p = Sum.inr p := by
    rw [classifyVM, if_pos hp]
  refine ⟨hcl, fun hpv => ?_, fun sa hpa => ?_, fun sa hpa => ?_,
    fun srcType out dbg hcv => ?_, fun srcType out dbg sa hca => ?_⟩
  · rw [compile_source_to_vm, hpv, hcl]
  · rw [compile_source_to_vm, hpa]
  · rw [compile_source_to_asm, hpa]
  · rw [compile, hcv]
  · rw [compile, hca]

theorem c7_downgrade_rejection_witness :
    compile_source_to_vm extSample SourceType.CoreVM =
      .error (.InvalidSource "expected core VM program, got standard VM program") ∧
    compile_source_to_asm extSample SourceType.CoreASM =
      .error (.InvalidSource "expected core assembly program, got standard assembly program") ∧
    compile extSample SourceType.StdVM TargetType.CoreVM "out" false =
      .error (.InvalidSource "expected core VM program, got standard VM program") := by
  have h := c7_downgrade_rejection extSample [StdOp.Alloc] (by decide)
  exact ⟨h.2.1 rfl, h.2.2.2.1 () rfl, h.2.2.2.2.1 SourceType.StdVM "out" false rfl⟩

/-- C8 (amended): the CLI process exits with status 0 both when
compilation succeeds and when any error of the taxonomy occurs; an error
is only written to the log (with its Debug rendering), never turned into a
non-zero exit status. -/
theorem c8_amended_exit_status (readRes : Except CliError String)
    (compileRes : String → Except CliError (Option (String × String))) :
    (cliRun readRes compileRes).1 = 0 ∧
    (∀ (src : String) (e : CliError),
      (cliRun (.ok src) (fun _ => .error e)).2 = [errLog e]) ∧
    (∀ e : CliError,
      (cliRun (.error e) compileRes).2 = ["Error reading file: " ++ errLog e]) := by
  refine ⟨?_, fun src e => rfl, fun e => rfl⟩
  cases readRes with
  | error e => rfl
  | ok contents =>
      rw [cliRun]
      cases compileRes contents <;> rfl

/-- C8 counterexample: the claim says every error of the taxonomy makes the
process exit with a non-zero status; in fact a `BuildError` (like every
other error) is only logged and the exit status is 0. -/
theorem c8_counterexample :
    (cliRun (.ok "main") (fun _ => .error (.BuildError "bad"))).1 = 0 :=
  rfl

end Sage
